import Mathlib

/-!
# Shallow embedding of the `VotingRoom` Solidity contract

This development embeds the `VotingRoom` contract found in
`Frontend/services/gaslessTransactions.ts` (the Solidity source appended to
that file) and proves properties of its room lifecycle, membership, voting
and result-publication operations.

Modelling conventions:
* account addresses and room codes are `String`s;
* `uint256` counters are `Nat` (each increment of `participantCount`,
  `totalVotes` and `candidateVotes` is tied to a distinct address or
  candidate index, so `2^256` overflow is unreachable);
* the `bytes32` password hash is a `Nat`; `keccak256` is an executable
  stand-in hash, used by the contract only for exact equality comparison;
* the encrypted `euint32` tally is represented by its 32-bit value and
  `FHE.add` by addition modulo `2^32`; the validity of the `inputProof`
  consumed by `FHE.fromExternal` is a boolean input (`false` makes the
  conversion revert); the FHE `allow`/`allowThis` grants have no observable
  state inside the contract and are omitted;
* the Solidity mappings `hasVoted` and `isParticipant` only ever store
  `true` entries, so they are modelled by the finite sets of addresses that
  have been marked `true`;
* a reverting call is `Except.error msg` carrying the `require` message;
  a revert leaves the contract state unchanged, which `stepTx` (the
  transaction-level semantics) makes explicit.
-/

namespace VotingRoom

/-- Executable stand-in for `keccak256(abi.encodePacked(password))`.
The contract only compares this value for exact equality. -/
def keccak256 (s : String) : Nat :=
  s.toList.foldl (fun h c => h * 131 + c.toNat + 1) 7

/-- The `Candidate` struct. `votes` is the value carried by the encrypted
`euint32` tally; `exists_` is the Solidity field `exists`. -/
structure Candidate where
  name : String
  description : String
  imageUrl : String
  votes : Nat
  exists_ : Bool
deriving DecidableEq

/-- The Solidity zero value of `Candidate` (an unwritten mapping slot). -/
def Candidate.zero : Candidate :=
  { name := "", description := "", imageUrl := "", votes := 0, exists_ := false }

/-- The `Room` struct. -/
structure Room where
  code : String
  title : String
  description : String
  creator : String
  maxParticipants : Nat
  participantCount : Nat
  endTime : Nat
  hasPassword : Bool
  passwordHash : Nat
  isActive : Bool
  isClosed : Bool
  candidateCount : Nat
deriving DecidableEq

/-- The Solidity zero value of `Room` (an unwritten mapping slot). -/
def Room.zero : Room :=
  { code := "", title := "", description := "", creator := "",
    maxParticipants := 0, participantCount := 0, endTime := 0,
    hasPassword := false, passwordHash := 0, isActive := false,
    isClosed := false, candidateCount := 0 }

/-- The contract storage: all mappings and arrays declared by `VotingRoom`. -/
structure ContractState where
  rooms : String → Room
  roomCandidates : String → Nat → Candidate
  hasVoted : String → Finset String
  isParticipant : String → Finset String
  totalVotes : String → Nat
  candidateVotes : String → Nat → Nat
  clearResults : String → Nat → Nat
  resultsPublished : String → Bool
  roomCodes : List String
  roomCodeIndex : String → Nat

/-- The storage of a freshly deployed contract: every mapping slot holds its
zero value. -/
def initialState : ContractState :=
  { rooms := fun _ => Room.zero,
    roomCandidates := fun _ _ => Candidate.zero,
    hasVoted := fun _ => ∅,
    isParticipant := fun _ => ∅,
    totalVotes := fun _ => 0,
    candidateVotes := fun _ _ => 0,
    clearResults := fun _ _ => 0,
    resultsPublished := fun _ => false,
    roomCodes := [],
    roomCodeIndex := fun _ => 0 }

/-- Transaction semantics of a call: a successful call commits the new
state, a reverting call leaves the state unchanged. -/
def stepTx (r : Except String ContractState) (s : ContractState) : ContractState :=
  match r with
  | .ok s' => s'
  | .error _ => s

/-- State produced by a successful `createRoom` (the stored `Room` plus the
`roomCodes` push, the `roomCodeIndex` entry, and the creator auto-join that
sets `participantCount` to 1). -/
def createRoomApply (sender roomCode title description : String)
    (maxParticipants endTime : Nat) (hasPassword : Bool) (passwordHash : Nat)
    (s : ContractState) : ContractState :=
  { s with
    rooms := fun c =>
      if c = roomCode then
        { code := roomCode, title := title, description := description,
          creator := sender, maxParticipants := maxParticipants,
          participantCount := 1, endTime := endTime,
          hasPassword := hasPassword, passwordHash := passwordHash,
          isActive := true, isClosed := false, candidateCount := 0 }
      else s.rooms c,
    roomCodes := s.roomCodes ++ [roomCode],
    roomCodeIndex := fun c =>
      if c = roomCode then s.roomCodes.length else s.roomCodeIndex c,
    isParticipant := fun c =>
      if c = roomCode then insert sender (s.isParticipant c) else s.isParticipant c }

/-- `createRoom`: the three `require`s followed by the storage writes. -/
def createRoom (sender roomCode title description : String)
    (maxParticipants endTime : Nat) (hasPassword : Bool) (passwordHash : Nat)
    (now : Nat) (s : ContractState) : Except String ContractState :=
  if (s.rooms roomCode).code.length = 0 then
    if now < endTime then
      if 0 < maxParticipants then
        .ok (createRoomApply sender roomCode title description maxParticipants
          endTime hasPassword passwordHash s)
      else .error "Max participants must be > 0"
    else .error "End time must be in the future"
  else .error "Room code already exists"

/-- State produced by writing one candidate (with an encrypted-zero tally)
at index `candidateCount` and incrementing the count — the body of
`addCandidate` and of each iteration of the candidate loops. -/
def addCandidateApply (roomCode name description imageUrl : String)
    (s : ContractState) : ContractState :=
  { s with
    roomCandidates := fun c i =>
      if c = roomCode ∧ i = (s.rooms roomCode).candidateCount then
        { name := name, description := description, imageUrl := imageUrl,
          votes := 0, exists_ := true }
      else s.roomCandidates c i,
    rooms := fun c =>
      if c = roomCode then
        { s.rooms roomCode with
          candidateCount := (s.rooms roomCode).candidateCount + 1 }
      else s.rooms c }

/-- The candidate-insertion loop shared by `createRoomWithCandidatesBatch`
and `addCandidatesBatch`. -/
def addCandidatesLoop (roomCode : String)
    (names descriptions imageUrls : List String) (s : ContractState) :
    ContractState :=
  match names, descriptions, imageUrls with
  | name :: ns, description :: ds, imageUrl :: us =>
      addCandidatesLoop roomCode ns ds us
        (addCandidateApply roomCode name description imageUrl s)
  | _, _, _ => s

/-- `createRoomWithCandidatesBatch`: `createRoom`'s `require`s, the two
array checks, the room creation, then the candidate loop. -/
def createRoomWithCandidatesBatch (sender roomCode title description : String)
    (maxParticipants endTime : Nat) (hasPassword : Bool) (passwordHash : Nat)
    (candidateNames candidateDescriptions candidateImageUrls : List String)
    (now : Nat) (s : ContractState) : Except String ContractState :=
  if (s.rooms roomCode).code.length = 0 then
    if now < endTime then
      if 0 < maxParticipants then
        if candidateNames.length = candidateDescriptions.length ∧
            candidateNames.length = candidateImageUrls.length then
          if 2 ≤ candidateNames.length then
            .ok (addCandidatesLoop roomCode candidateNames
              candidateDescriptions candidateImageUrls
              (createRoomApply sender roomCode title description
                maxParticipants endTime hasPassword passwordHash s))
          else .error "At least 2 candidates required"
        else .error "Arrays length mismatch"
      else .error "Max participants must be > 0"
    else .error "End time must be in the future"
  else .error "Room code already exists"

/-- `addCandidate`: `roomExists`, the creator check and the activity check,
then a single candidate write. -/
def addCandidate (sender roomCode name description imageUrl : String)
    (s : ContractState) : Except String ContractState :=
  if 0 < (s.rooms roomCode).code.length then
    if sender = (s.rooms roomCode).creator then
      if (s.rooms roomCode).isActive then
        .ok (addCandidateApply roomCode name description imageUrl s)
      else .error "Room is not active"
    else .error "Only creator can add candidates"
  else .error "Room does not exist"

/-- `addCandidatesBatch`: `roomExists`, the creator/activity checks and the
two array checks, then the candidate loop. -/
def addCandidatesBatch (sender roomCode : String)
    (names descriptions imageUrls : List String) (s : ContractState) :
    Except String ContractState :=
  if 0 < (s.rooms roomCode).code.length then
    if sender = (s.rooms roomCode).creator then
      if (s.rooms roomCode).isActive then
        if names.length = descriptions.length ∧
            names.length = imageUrls.length then
          if 0 < names.length then
            .ok (addCandidatesLoop roomCode names descriptions imageUrls s)
          else .error "At least one candidate required"
        else .error "Arrays length mismatch"
      else .error "Room is not active"
    else .error "Only creator can add candidates"
  else .error "Room does not exist"

/-- State produced by a successful `joinRoom`: the caller is marked as a
participant, `participantCount` is incremented, and the room is closed if
it is now full. -/
def joinRoomApply (sender roomCode : String) (s : ContractState) :
    ContractState :=
  { s with
    isParticipant := fun c =>
      if c = roomCode then insert sender (s.isParticipant c) else s.isParticipant c,
    rooms := fun c =>
      if c = roomCode then
        { s.rooms roomCode with
          participantCount := (s.rooms roomCode).participantCount + 1,
          isClosed :=
            if (s.rooms roomCode).maxParticipants ≤
                (s.rooms roomCode).participantCount + 1 then
              true
            else (s.rooms roomCode).isClosed }
      else s.rooms c }

/-- `joinRoom`: the `roomExists` and `roomActive` modifiers, the
participant and capacity `require`s, and the conditional password check. -/
def joinRoom (sender roomCode password : String) (now : Nat)
    (s : ContractState) : Except String ContractState :=
  if 0 < (s.rooms roomCode).code.length then
    if (s.rooms roomCode).isActive then
      if now < (s.rooms roomCode).endTime then
        if ¬(s.rooms roomCode).isClosed then
          if sender ∉ s.isParticipant roomCode then
            if (s.rooms roomCode).participantCount <
                (s.rooms roomCode).maxParticipants then
              if (s.rooms roomCode).hasPassword ∧
                  keccak256 password ≠ (s.rooms roomCode).passwordHash then
                .error "Invalid password"
              else .ok (joinRoomApply sender roomCode s)
            else .error "Room is full"
          else .error "Already a participant"
        else .error "Room is closed for new participants"
      else .error "Room has ended"
    else .error "Room is not active"
  else .error "Room does not exist"

/-- State produced by a successful `vote`: the homomorphic add into the
candidate's tally, the `hasVoted` flag, both plaintext counters, and the
auto-close when `totalVotes` reaches `maxParticipants`. -/
def voteApply (sender roomCode : String) (candidateId encryptedVote : Nat)
    (s : ContractState) : ContractState :=
  { s with
    roomCandidates := fun c i =>
      if c = roomCode ∧ i = candidateId then
        { s.roomCandidates roomCode candidateId with
          votes := ((s.roomCandidates roomCode candidateId).votes +
            encryptedVote) % 2 ^ 32 }
      else s.roomCandidates c i,
    hasVoted := fun c =>
      if c = roomCode then insert sender (s.hasVoted c) else s.hasVoted c,
    totalVotes := fun c =>
      if c = roomCode then s.totalVotes roomCode + 1 else s.totalVotes c,
    candidateVotes := fun c i =>
      if c = roomCode ∧ i = candidateId then
        s.candidateVotes roomCode candidateId + 1
      else s.candidateVotes c i,
    rooms := fun c =>
      if c = roomCode then
        { s.rooms roomCode with
          isActive :=
            if (s.rooms roomCode).maxParticipants ≤ s.totalVotes roomCode + 1 then
              false
            else (s.rooms roomCode).isActive }
      else s.rooms c }

/-- `vote`: the `roomExists`, `isRoomParticipant` and `hasNotVoted`
modifiers, the four body `require`s, the proof check performed by
`FHE.fromExternal`, then the storage writes. -/
def vote (sender roomCode : String) (candidateId encryptedVote : Nat)
    (proofValid : Bool) (now : Nat) (s : ContractState) :
    Except String ContractState :=
  if 0 < (s.rooms roomCode).code.length then
    if sender ∈ s.isParticipant roomCode then
      if sender ∉ s.hasVoted roomCode then
        if (s.rooms roomCode).isActive then
          if now < (s.rooms roomCode).endTime then
            if candidateId < (s.rooms roomCode).candidateCount then
              if (s.roomCandidates roomCode candidateId).exists_ then
                if proofValid then
                  .ok (voteApply sender roomCode candidateId encryptedVote s)
                else .error "Invalid input proof"
              else .error "Candidate does not exist"
            else .error "Invalid candidate"
          else .error "Room has ended"
        else .error "Room is not active"
      else .error "Already voted in this room"
    else .error "Not a participant in this room"
  else .error "Room does not exist"

/-- State produced by `endRoom`/`checkAndEndRoom`: `isActive` is cleared. -/
def endRoomApply (roomCode : String) (s : ContractState) : ContractState :=
  { s with
    rooms := fun c =>
      if c = roomCode then { s.rooms roomCode with isActive := false }
      else s.rooms c }

/-- `endRoom`: `roomExists`, the creator check, the activity check, then
the deactivation. -/
def endRoom (sender roomCode : String) (s : ContractState) :
    Except String ContractState :=
  if 0 < (s.rooms roomCode).code.length then
    if sender = (s.rooms roomCode).creator then
      if (s.rooms roomCode).isActive then
        .ok (endRoomApply roomCode s)
      else .error "Room already ended"
    else .error "Only creator can end room"
  else .error "Room does not exist"

/-- `checkAndEndRoom`: `roomExists`, the activity check, the time check,
then the deactivation; the caller (`sender`) is never inspected. -/
def checkAndEndRoom (sender : String) (roomCode : String) (now : Nat)
    (s : ContractState) : Except String ContractState :=
  if 0 < (s.rooms roomCode).code.length then
    if (s.rooms roomCode).isActive then
      if (s.rooms roomCode).endTime ≤ now then
        .ok (endRoomApply roomCode s)
      else .error "Room has not ended yet"
    else .error "Room already ended"
  else .error "Room does not exist"

/-- State produced by a successful `publishResults`: the `clearResults`
loop writes `candidateVoteCounts[i]` at every index `i` of the array, then
`resultsPublished` is set. -/
def publishResultsApply (roomCode : String) (candidateVoteCounts : List Nat)
    (s : ContractState) : ContractState :=
  { s with
    clearResults := fun c i =>
      if c = roomCode ∧ i < candidateVoteCounts.length then
        candidateVoteCounts.getD i 0
      else s.clearResults c i,
    resultsPublished := fun c =>
      if c = roomCode then true else s.resultsPublished c }

/-- `publishResults`: `roomExists`, the creator check, the ended check, the
length check, then the `clearResults` loop and the `resultsPublished`
flag. -/
def publishResults (sender roomCode : String) (candidateVoteCounts : List Nat)
    (s : ContractState) : Except String ContractState :=
  if 0 < (s.rooms roomCode).code.length then
    if sender = (s.rooms roomCode).creator then
      if ¬(s.rooms roomCode).isActive then
        if candidateVoteCounts.length = (s.rooms roomCode).candidateCount then
          .ok (publishResultsApply roomCode candidateVoteCounts s)
        else .error "Invalid candidate votes length"
      else .error "Room must be ended to publish results"
    else .error "Only creator can publish results"
  else .error "Room does not exist"

/-- `getCandidate`: `roomExists`, the index check, then the three string
fields of the candidate. -/
def getCandidate (roomCode : String) (candidateId : Nat) (s : ContractState) :
    Except String (String × String × String) :=
  if 0 < (s.rooms roomCode).code.length then
    if candidateId < (s.rooms roomCode).candidateCount then
      .ok ((s.roomCandidates roomCode candidateId).name,
        (s.roomCandidates roomCode candidateId).description,
        (s.roomCandidates roomCode candidateId).imageUrl)
    else .error "Invalid candidate"
  else .error "Room does not exist"

/-- `getClearResults`: `roomExists`, the published check, the index check,
then the stored clear result. -/
def getClearResults (roomCode : String) (candidateId : Nat)
    (s : ContractState) : Except String Nat :=
  if 0 < (s.rooms roomCode).code.length then
    if s.resultsPublished roomCode then
      if candidateId < (s.rooms roomCode).candidateCount then
        .ok (s.clearResults roomCode candidateId)
      else .error "Invalid candidate"
    else .error "Results not published yet"
  else .error "Room does not exist"

/-- One state-changing transaction submitted to the contract, with the
caller identity and the block timestamp it executes at. -/
inductive Op where
  | createRoom (sender roomCode title description : String)
      (maxParticipants endTime : Nat) (hasPassword : Bool) (passwordHash : Nat)
      (now : Nat)
  | createRoomWithCandidatesBatch (sender roomCode title description : String)
      (maxParticipants endTime : Nat) (hasPassword : Bool) (passwordHash : Nat)
      (candidateNames candidateDescriptions candidateImageUrls : List String)
      (now : Nat)
  | addCandidate (sender roomCode name description imageUrl : String)
  | addCandidatesBatch (sender roomCode : String)
      (names descriptions imageUrls : List String)
  | joinRoom (sender roomCode password : String) (now : Nat)
  | vote (sender roomCode : String) (candidateId encryptedVote : Nat)
      (proofValid : Bool) (now : Nat)
  | endRoom (sender roomCode : String)
  | checkAndEndRoom (sender roomCode : String) (now : Nat)
  | publishResults (sender roomCode : String) (candidateVoteCounts : List Nat)

/-- Whether an `Op` is a `vote` transaction. -/
def Op.isVote : Op → Bool
  | .vote _ _ _ _ _ _ => true
  | _ => false

/-- Execute one transaction: apply the call and commit or revert. -/
def applyOp (op : Op) (s : ContractState) : ContractState :=
  match op with
  | .createRoom sender roomCode title description mp et hp ph now =>
      stepTx (createRoom sender roomCode title description mp et hp ph now s) s
  | .createRoomWithCandidatesBatch sender roomCode title description mp et hp ph ns ds us now =>
      stepTx (createRoomWithCandidatesBatch sender roomCode title description
        mp et hp ph ns ds us now s) s
  | .addCandidate sender roomCode name description imageUrl =>
      stepTx (addCandidate sender roomCode name description imageUrl s) s
  | .addCandidatesBatch sender roomCode ns ds us =>
      stepTx (addCandidatesBatch sender roomCode ns ds us s) s
  | .joinRoom sender roomCode password now =>
      stepTx (joinRoom sender roomCode password now s) s
  | .vote sender roomCode cid v p now =>
      stepTx (vote sender roomCode cid v p now s) s
  | .endRoom sender roomCode =>
      stepTx (endRoom sender roomCode s) s
  | .checkAndEndRoom sender roomCode now =>
      stepTx (checkAndEndRoom sender roomCode now s) s
  | .publishResults sender roomCode counts =>
      stepTx (publishResults sender roomCode counts s) s

/-- Execute a sequence of transactions in order. -/
def execOps (ops : List Op) (s : ContractState) : ContractState :=
  ops.foldl (fun t op => applyOp op t) s

/-- A state the contract can reach from deployment by some sequence of
transactions. -/
def Reachable (s : ContractState) : Prop :=
  ∃ ops : List Op, s = execOps ops initialState

theorem execOps_cons (op : Op) (ops : List Op) (s : ContractState) :
    execOps (op :: ops) s = execOps ops (applyOp op s) := rfl

theorem stepTx_of_error {r : Except String ContractState} {s : ContractState}
    {e : String} (h : r = .error e) : stepTx r s = s := by
  rw [h]; rfl

/-- Case analysis on a transaction: either it reverts (state unchanged) or
it commits its successful result. -/
theorem stepTx_cases {P : ContractState → Prop} {r : Except String ContractState}
    {s : ContractState} (hs : P s) (h : ∀ s', r = .ok s' → P s') :
    P (stepTx r s) := by
  cases r with
  | ok t => exact h t rfl
  | error e => exact hs

theorem addCandidatesLoop_frame (roomCode : String) (ns ds us : List String)
    (s : ContractState) :
    (addCandidatesLoop roomCode ns ds us s).hasVoted = s.hasVoted ∧
    (addCandidatesLoop roomCode ns ds us s).isParticipant = s.isParticipant ∧
    (addCandidatesLoop roomCode ns ds us s).totalVotes = s.totalVotes ∧
    (addCandidatesLoop roomCode ns ds us s).candidateVotes = s.candidateVotes ∧
    (addCandidatesLoop roomCode ns ds us s).clearResults = s.clearResults ∧
    (addCandidatesLoop roomCode ns ds us s).resultsPublished = s.resultsPublished := by
  induction ns generalizing ds us s with
  | nil => cases ds <;> cases us <;> exact ⟨rfl, rfl, rfl, rfl, rfl, rfl⟩
  | cons n ns ih =>
    cases ds with
    | nil => cases us <;> exact ⟨rfl, rfl, rfl, rfl, rfl, rfl⟩
    | cons d ds =>
      cases us with
      | nil => exact ⟨rfl, rfl, rfl, rfl, rfl, rfl⟩
      | cons u us => exact ih ds us (addCandidateApply roomCode n d u s)

theorem addCandidatesLoop_room_fields (roomCode : String)
    (ns ds us : List String) (s : ContractState) (c : String) :
    ((addCandidatesLoop roomCode ns ds us s).rooms c).code = (s.rooms c).code ∧
    ((addCandidatesLoop roomCode ns ds us s).rooms c).creator = (s.rooms c).creator ∧
    ((addCandidatesLoop roomCode ns ds us s).rooms c).maxParticipants =
      (s.rooms c).maxParticipants ∧
    ((addCandidatesLoop roomCode ns ds us s).rooms c).participantCount =
      (s.rooms c).participantCount ∧
    ((addCandidatesLoop roomCode ns ds us s).rooms c).endTime = (s.rooms c).endTime ∧
    ((addCandidatesLoop roomCode ns ds us s).rooms c).hasPassword =
      (s.rooms c).hasPassword ∧
    ((addCandidatesLoop roomCode ns ds us s).rooms c).passwordHash =
      (s.rooms c).passwordHash ∧
    ((addCandidatesLoop roomCode ns ds us s).rooms c).isActive = (s.rooms c).isActive ∧
    ((addCandidatesLoop roomCode ns ds us s).rooms c).isClosed = (s.rooms c).isClosed := by
  induction ns generalizing ds us s with
  | nil =>
    cases ds <;> cases us <;> exact ⟨rfl, rfl, rfl, rfl, rfl, rfl, rfl, rfl, rfl⟩
  | cons n ns ih =>
    cases ds with
    | nil => cases us <;> exact ⟨rfl, rfl, rfl, rfl, rfl, rfl, rfl, rfl, rfl⟩
    | cons d ds =>
      cases us with
      | nil => exact ⟨rfl, rfl, rfl, rfl, rfl, rfl, rfl, rfl, rfl⟩
      | cons u us =>
        obtain ⟨e1, e2, e3, e4, e5, e6, e7, e8, e9⟩ :=
          ih ds us (addCandidateApply roomCode n d u s)
        have hstep : (addCandidateApply roomCode n d u s).rooms c =
            if c = roomCode then
              { s.rooms roomCode with
                candidateCount := (s.rooms roomCode).candidateCount + 1 }
            else s.rooms c := rfl
        refine ⟨e1.trans ?_, e2.trans ?_, e3.trans ?_, e4.trans ?_, e5.trans ?_,
          e6.trans ?_, e7.trans ?_, e8.trans ?_, e9.trans ?_⟩ <;>
          (rw [hstep]; by_cases hc : c = roomCode <;> simp [hc])

theorem addCandidatesLoop_count (roomCode : String) (ns ds us : List String)
    (hd : ns.length = ds.length) (hu : ns.length = us.length)
    (s : ContractState) (c : String) :
    ((addCandidatesLoop roomCode ns ds us s).rooms c).candidateCount =
      if c = roomCode then (s.rooms roomCode).candidateCount + ns.length
      else (s.rooms c).candidateCount := by
  induction ns generalizing ds us s with
  | nil =>
    cases ds with
    | cons d ds => simp at hd
    | nil =>
      cases us with
      | cons u us => simp at hu
      | nil =>
        show (s.rooms c).candidateCount = _
        by_cases hc : c = roomCode <;> simp [hc]
  | cons n ns ih =>
    cases ds with
    | nil => simp at hd
    | cons d ds =>
      cases us with
      | nil => simp at hu
      | cons u us =>
        simp only [List.length_cons] at hd hu
        rw [show addCandidatesLoop roomCode (n :: ns) (d :: ds) (u :: us) s =
            addCandidatesLoop roomCode ns ds us
              (addCandidateApply roomCode n d u s) from rfl,
          ih ds us (by omega) (by omega) (addCandidateApply roomCode n d u s)]
        by_cases hc : c = roomCode <;> simp [addCandidateApply, hc] <;> omega

theorem addCandidatesLoop_roomCandidates (roomCode : String)
    (ns ds us : List String) (hd : ns.length = ds.length)
    (hu : ns.length = us.length) (s : ContractState) (c : String) (i : Nat) :
    (addCandidatesLoop roomCode ns ds us s).roomCandidates c i =
      if c = roomCode ∧ (s.rooms roomCode).candidateCount ≤ i ∧
          i < (s.rooms roomCode).candidateCount + ns.length then
        { name := ns.getD (i - (s.rooms roomCode).candidateCount) "",
          description := ds.getD (i - (s.rooms roomCode).candidateCount) "",
          imageUrl := us.getD (i - (s.rooms roomCode).candidateCount) "",
          votes := 0, exists_ := true }
      else s.roomCandidates c i := by
  induction ns generalizing ds us s with
  | nil =>
    cases ds with
    | cons d ds => simp at hd
    | nil =>
      cases us with
      | cons u us => simp at hu
      | nil =>
        show s.roomCandidates c i = _
        rw [if_neg]
        rintro ⟨-, h1, h2⟩
        simp at h2
        omega
  | cons n ns ih =>
    cases ds with
    | nil => simp at hd
    | cons d ds =>
      cases us with
      | nil => simp at hu
      | cons u us =>
        simp only [List.length_cons] at hd hu
        have e := ih ds us (by omega) (by omega) (addCandidateApply roomCode n d u s)
        have hcc : ((addCandidateApply roomCode n d u s).rooms roomCode).candidateCount =
            (s.rooms roomCode).candidateCount + 1 := by
          simp [addCandidateApply]
        have hrc : (addCandidateApply roomCode n d u s).roomCandidates c i =
            if c = roomCode ∧ i = (s.rooms roomCode).candidateCount then
              { name := n, description := d, imageUrl := u,
                votes := 0, exists_ := true }
            else s.roomCandidates c i := rfl
        rw [show addCandidatesLoop roomCode (n :: ns) (d :: ds) (u :: us) s =
            addCandidatesLoop roomCode ns ds us
              (addCandidateApply roomCode n d u s) from rfl,
          e, hcc, hrc]
        simp only [List.length_cons]
        by_cases hc : c = roomCode
        · by_cases h1 : (s.rooms roomCode).candidateCount + 1 ≤ i ∧
              i < (s.rooms roomCode).candidateCount + 1 + ns.length
          · rw [if_pos ⟨hc, h1.1, h1.2⟩, if_pos ⟨hc, by omega, by omega⟩]
            have hsub : i - (s.rooms roomCode).candidateCount =
                (i - ((s.rooms roomCode).candidateCount + 1)) + 1 := by omega
            rw [hsub]
            rfl
          · rw [if_neg (by rintro ⟨-, ha, hb⟩; exact h1 ⟨ha, hb⟩)]
            by_cases h2 : i = (s.rooms roomCode).candidateCount
            · rw [if_pos ⟨hc, h2⟩, if_pos ⟨hc, by omega, by omega⟩, h2,
                Nat.sub_self]
              rfl
            · rw [if_neg (by rintro ⟨-, hb⟩; exact h2 hb),
                if_neg (by rintro ⟨-, ha, hb⟩; exact h1 ⟨by omega, by omega⟩)]
        · rw [if_neg (by rintro ⟨hb, -⟩; exact hc hb),
            if_neg (by rintro ⟨hb, -⟩; exact hc hb),
            if_neg (by rintro ⟨hb, -⟩; exact hc hb)]

theorem createRoom_ok_iff {sender roomCode title description : String}
    {mp et : Nat} {hp : Bool} {ph now : Nat} {s s' : ContractState} :
    createRoom sender roomCode title description mp et hp ph now s = .ok s' ↔
      (s.rooms roomCode).code.length = 0 ∧ now < et ∧ 0 < mp ∧
        s' = createRoomApply sender roomCode title description mp et hp ph s := by
  constructor
  · intro h
    unfold createRoom at h
    split_ifs at h with h1 h2 h3
    exact ⟨h1, h2, h3, (Except.ok.inj h).symm⟩
  · rintro ⟨h1, h2, h3, rfl⟩
    unfold createRoom
    rw [if_pos h1, if_pos h2, if_pos h3]

theorem createRoomWithCandidatesBatch_ok_iff
    {sender roomCode title description : String} {mp et : Nat} {hp : Bool}
    {ph : Nat} {ns ds us : List String} {now : Nat} {s s' : ContractState} :
    createRoomWithCandidatesBatch sender roomCode title description mp et hp ph
        ns ds us now s = .ok s' ↔
      (s.rooms roomCode).code.length = 0 ∧ now < et ∧ 0 < mp ∧
        (ns.length = ds.length ∧ ns.length = us.length) ∧ 2 ≤ ns.length ∧
        s' = addCandidatesLoop roomCode ns ds us
          (createRoomApply sender roomCode title description mp et hp ph s) := by
  constructor
  · intro h
    unfold createRoomWithCandidatesBatch at h
    split_ifs at h with h1 h2 h3 h4 h5
    exact ⟨h1, h2, h3, h4, h5, (Except.ok.inj h).symm⟩
  · rintro ⟨h1, h2, h3, h4, h5, rfl⟩
    unfold createRoomWithCandidatesBatch
    rw [if_pos h1, if_pos h2, if_pos h3, if_pos h4, if_pos h5]

theorem addCandidate_ok_iff {sender roomCode name description imageUrl : String}
    {s s' : ContractState} :
    addCandidate sender roomCode name description imageUrl s = .ok s' ↔
      0 < (s.rooms roomCode).code.length ∧ sender = (s.rooms roomCode).creator ∧
        (s.rooms roomCode).isActive = true ∧
        s' = addCandidateApply roomCode name description imageUrl s := by
  constructor
  · intro h
    unfold addCandidate at h
    split_ifs at h with h1 h2 h3
    exact ⟨h1, h2, h3, (Except.ok.inj h).symm⟩
  · rintro ⟨h1, h2, h3, rfl⟩
    unfold addCandidate
    rw [if_pos h1, if_pos h2, if_pos h3]

theorem addCandidatesBatch_ok_iff {sender roomCode : String}
    {ns ds us : List String} {s s' : ContractState} :
    addCandidatesBatch sender roomCode ns ds us s = .ok s' ↔
      0 < (s.rooms roomCode).code.length ∧ sender = (s.rooms roomCode).creator ∧
        (s.rooms roomCode).isActive = true ∧
        (ns.length = ds.length ∧ ns.length = us.length) ∧ 0 < ns.length ∧
        s' = addCandidatesLoop roomCode ns ds us s := by
  constructor
  · intro h
    unfold addCandidatesBatch at h
    split_ifs at h with h1 h2 h3 h4 h5
    exact ⟨h1, h2, h3, h4, h5, (Except.ok.inj h).symm⟩
  · rintro ⟨h1, h2, h3, h4, h5, rfl⟩
    unfold addCandidatesBatch
    rw [if_pos h1, if_pos h2, if_pos h3, if_pos h4, if_pos h5]

theorem joinRoom_ok_iff {sender roomCode password : String} {now : Nat}
    {s s' : ContractState} :
    joinRoom sender roomCode password now s = .ok s' ↔
      0 < (s.rooms roomCode).code.length ∧ (s.rooms roomCode).isActive = true ∧
        now < (s.rooms roomCode).endTime ∧ (s.rooms roomCode).isClosed = false ∧
        sender ∉ s.isParticipant roomCode ∧
        (s.rooms roomCode).participantCount < (s.rooms roomCode).maxParticipants ∧
        ¬((s.rooms roomCode).hasPassword ∧
          keccak256 password ≠ (s.rooms roomCode).passwordHash) ∧
        s' = joinRoomApply sender roomCode s := by
  constructor
  · intro h
    unfold joinRoom at h
    split_ifs at h with h1 h2 h3 h4 h5 h6 h7
    exact ⟨h1, h2, h3, by simpa using h4, h5, h6, h7, (Except.ok.inj h).symm⟩
  · rintro ⟨h1, h2, h3, h4, h5, h6, h7, rfl⟩
    unfold joinRoom
    rw [if_pos h1, if_pos h2, if_pos h3, if_pos (by simp [h4]), if_pos h5,
      if_pos h6, if_neg h7]

theorem vote_ok_iff {sender roomCode : String} {cid v : Nat} {p : Bool}
    {now : Nat} {s s' : ContractState} :
    vote sender roomCode cid v p now s = .ok s' ↔
      0 < (s.rooms roomCode).code.length ∧ sender ∈ s.isParticipant roomCode ∧
        sender ∉ s.hasVoted roomCode ∧ (s.rooms roomCode).isActive = true ∧
        now < (s.rooms roomCode).endTime ∧
        cid < (s.rooms roomCode).candidateCount ∧
        (s.roomCandidates roomCode cid).exists_ = true ∧ p = true ∧
        s' = voteApply sender roomCode cid v s := by
  constructor
  · intro h
    unfold vote at h
    split_ifs at h with h1 h2 h3 h4 h5 h6 h7 h8
    exact ⟨h1, h2, h3, h4, h5, h6, h7, h8, (Except.ok.inj h).symm⟩
  · rintro ⟨h1, h2, h3, h4, h5, h6, h7, h8, rfl⟩
    unfold vote
    rw [if_pos h1, if_pos h2, if_pos h3, if_pos h4, if_pos h5, if_pos h6,
      if_pos h7, if_pos h8]

theorem endRoom_ok_iff {sender roomCode : String} {s s' : ContractState} :
    endRoom sender roomCode s = .ok s' ↔
      0 < (s.rooms roomCode).code.length ∧ sender = (s.rooms roomCode).creator ∧
        (s.rooms roomCode).isActive = true ∧ s' = endRoomApply roomCode s := by
  constructor
  · intro h
    unfold endRoom at h
    split_ifs at h with h1 h2 h3
    exact ⟨h1, h2, h3, (Except.ok.inj h).symm⟩
  · rintro ⟨h1, h2, h3, rfl⟩
    unfold endRoom
    rw [if_pos h1, if_pos h2, if_pos h3]

theorem checkAndEndRoom_ok_iff {sender roomCode : String} {now : Nat}
    {s s' : ContractState} :
    checkAndEndRoom sender roomCode now s = .ok s' ↔
      0 < (s.rooms roomCode).code.length ∧ (s.rooms roomCode).isActive = true ∧
        (s.rooms roomCode).endTime ≤ now ∧ s' = endRoomApply roomCode s := by
  constructor
  · intro h
    unfold checkAndEndRoom at h
    split_ifs at h with h1 h2 h3
    exact ⟨h1, h2, h3, (Except.ok.inj h).symm⟩
  · rintro ⟨h1, h2, h3, rfl⟩
    unfold checkAndEndRoom
    rw [if_pos h1, if_pos h2, if_pos h3]

theorem publishResults_ok_iff {sender roomCode : String} {counts : List Nat}
    {s s' : ContractState} :
    publishResults sender roomCode counts s = .ok s' ↔
      0 < (s.rooms roomCode).code.length ∧ sender = (s.rooms roomCode).creator ∧
        (s.rooms roomCode).isActive = false ∧
        counts.length = (s.rooms roomCode).candidateCount ∧
        s' = publishResultsApply roomCode counts s := by
  constructor
  · intro h
    unfold publishResults at h
    split_ifs at h with h1 h2 h3 h4
    exact ⟨h1, h2, by simpa using h3, h4, (Except.ok.inj h).symm⟩
  · rintro ⟨h1, h2, h3, h4, rfl⟩
    unfold publishResults
    rw [if_pos h1, if_pos h2, if_pos (by simp [h3]), if_pos h4]

theorem createRoomApply_frame (sender roomCode title description : String)
    (mp et : Nat) (hp : Bool) (ph : Nat) (s : ContractState) (r a : String)
    (h1 : (s.rooms roomCode).code.length = 0) :
    (0 < (s.rooms r).code.length →
      0 < ((createRoomApply sender roomCode title description mp et hp ph
        s).rooms r).code.length) ∧
    (0 < (s.rooms r).code.length → (s.rooms r).isActive = false →
      ((createRoomApply sender roomCode title description mp et hp ph
        s).rooms r).isActive = false) ∧
    (a ∈ s.isParticipant r →
      a ∈ (createRoomApply sender roomCode title description mp et hp ph
        s).isParticipant r) ∧
    (a ∈ s.hasVoted r →
      a ∈ (createRoomApply sender roomCode title description mp et hp ph
        s).hasVoted r) := by
  by_cases hr : r = roomCode
  · refine ⟨fun h => absurd h1 (by rw [hr] at h; omega),
      fun h _ => absurd h1 (by rw [hr] at h; omega), fun h => ?_, fun h => h⟩
    simp only [createRoomApply]
    rw [if_pos hr]
    exact Finset.mem_insert_of_mem h
  · refine ⟨fun h => ?_, fun h h' => ?_, fun h => ?_, fun h => h⟩ <;>
      (simp only [createRoomApply]; rw [if_neg hr]) <;> assumption

/-- Per-transaction frame facts: an existing room keeps a nonempty code, a
deactivated existing room stays deactivated, and the `isParticipant` and
`hasVoted` marks are never cleared. -/
theorem applyOp_frame (op : Op) (s : ContractState) (r a : String) :
    (0 < (s.rooms r).code.length → 0 < ((applyOp op s).rooms r).code.length) ∧
    (0 < (s.rooms r).code.length → (s.rooms r).isActive = false →
      ((applyOp op s).rooms r).isActive = false) ∧
    (a ∈ s.isParticipant r → a ∈ (applyOp op s).isParticipant r) ∧
    (a ∈ s.hasVoted r → a ∈ (applyOp op s).hasVoted r) := by
  cases op with
  | createRoom sender roomCode title description mp et hp ph now =>
    rcases hres : createRoom sender roomCode title description mp et hp ph now s
      with _ | s'
    · simp only [applyOp, hres, stepTx]
      exact ⟨fun h => h, fun _ h => h, fun h => h, fun h => h⟩
    · simp only [applyOp, hres, stepTx]
      obtain ⟨h1, -, -, rfl⟩ := createRoom_ok_iff.mp hres
      exact createRoomApply_frame sender roomCode title description mp et hp ph
        s r a h1
  | createRoomWithCandidatesBatch sender roomCode title description mp et hp ph ns ds us now =>
    rcases hres : createRoomWithCandidatesBatch sender roomCode title description
        mp et hp ph ns ds us now s with _ | s'
    · simp only [applyOp, hres, stepTx]
      exact ⟨fun h => h, fun _ h => h, fun h => h, fun h => h⟩
    · simp only [applyOp, hres, stepTx]
      obtain ⟨h1, -, -, -, -, rfl⟩ := createRoomWithCandidatesBatch_ok_iff.mp hres
      obtain ⟨hcode, -, -, -, -, -, -, hact, -⟩ :=
        addCandidatesLoop_room_fields roomCode ns ds us
          (createRoomApply sender roomCode title description mp et hp ph s) r
      obtain ⟨hhv, hip, -, -, -, -⟩ :=
        addCandidatesLoop_frame roomCode ns ds us
          (createRoomApply sender roomCode title description mp et hp ph s)
      rw [show ∀ c, (addCandidatesLoop roomCode ns ds us
          (createRoomApply sender roomCode title description mp et hp ph
            s)).hasVoted c = (createRoomApply sender roomCode title description
              mp et hp ph s).hasVoted c from fun c => by rw [hhv],
        show ∀ c, (addCandidatesLoop roomCode ns ds us
          (createRoomApply sender roomCode title description mp et hp ph
            s)).isParticipant c = (createRoomApply sender roomCode title
              description mp et hp ph s).isParticipant c from fun c => by
                rw [hip],
        hcode, hact]
      exact createRoomApply_frame sender roomCode title description mp et hp ph
        s r a h1
  | addCandidate sender roomCode name description imageUrl =>
    rcases hres : addCandidate sender roomCode name description imageUrl s
      with _ | s'
    · simp only [applyOp, hres, stepTx]
      exact ⟨fun h => h, fun _ h => h, fun h => h, fun h => h⟩
    · simp only [applyOp, hres, stepTx]
      obtain ⟨-, -, -, rfl⟩ := addCandidate_ok_iff.mp hres
      refine ⟨fun h => ?_, fun h h' => ?_, fun h => ?_, fun h => ?_⟩ <;>
        by_cases hr : r = roomCode <;> simp_all [addCandidateApply]
  | addCandidatesBatch sender roomCode ns ds us =>
    rcases hres : addCandidatesBatch sender roomCode ns ds us s with _ | s'
    · simp only [applyOp, hres, stepTx]
      exact ⟨fun h => h, fun _ h => h, fun h => h, fun h => h⟩
    · simp only [applyOp, hres, stepTx]
      obtain ⟨-, -, -, -, -, rfl⟩ := addCandidatesBatch_ok_iff.mp hres
      obtain ⟨hcode, -, -, -, -, -, -, hact, -⟩ :=
        addCandidatesLoop_room_fields roomCode ns ds us s r
      obtain ⟨hhv, hip, -, -, -, -⟩ := addCandidatesLoop_frame roomCode ns ds us s
      rw [hcode, hact, hhv, hip]
      exact ⟨fun h => h, fun _ h => h, fun h => h, fun h => h⟩
  | joinRoom sender roomCode password now =>
    rcases hres : joinRoom sender roomCode password now s with _ | s'
    · simp only [applyOp, hres, stepTx]
      exact ⟨fun h => h, fun _ h => h, fun h => h, fun h => h⟩
    · simp only [applyOp, hres, stepTx]
      obtain ⟨-, -, -, -, -, -, -, rfl⟩ := joinRoom_ok_iff.mp hres
      refine ⟨fun h => ?_, fun h h' => ?_, fun h => ?_, fun h => ?_⟩ <;>
        by_cases hr : r = roomCode <;>
        simp_all [joinRoomApply, Finset.mem_insert_of_mem]
  | vote sender roomCode cid v p now =>
    rcases hres : vote sender roomCode cid v p now s with _ | s'
    · simp only [applyOp, hres, stepTx]
      exact ⟨fun h => h, fun _ h => h, fun h => h, fun h => h⟩
    · simp only [applyOp, hres, stepTx]
      obtain ⟨-, -, -, hact, -, -, -, -, rfl⟩ := vote_ok_iff.mp hres
      refine ⟨fun h => ?_, fun h h' => ?_, fun h => ?_, fun h => ?_⟩ <;>
        by_cases hr : r = roomCode <;>
        simp_all [voteApply, Finset.mem_insert_of_mem]
  | endRoom sender roomCode =>
    rcases hres : endRoom sender roomCode s with _ | s'
    · simp only [applyOp, hres, stepTx]
      exact ⟨fun h => h, fun _ h => h, fun h => h, fun h => h⟩
    · simp only [applyOp, hres, stepTx]
      obtain ⟨-, -, -, rfl⟩ := endRoom_ok_iff.mp hres
      refine ⟨fun h => ?_, fun h h' => ?_, fun h => ?_, fun h => ?_⟩ <;>
        by_cases hr : r = roomCode <;> simp_all [endRoomApply]
  | checkAndEndRoom sender roomCode now =>
    rcases hres : checkAndEndRoom sender roomCode now s with _ | s'
    · simp only [applyOp, hres, stepTx]
      exact ⟨fun h => h, fun _ h => h, fun h => h, fun h => h⟩
    · simp only [applyOp, hres, stepTx]
      obtain ⟨-, -, -, rfl⟩ := checkAndEndRoom_ok_iff.mp hres
      refine ⟨fun h => ?_, fun h h' => ?_, fun h => ?_, fun h => ?_⟩ <;>
        by_cases hr : r = roomCode <;> simp_all [endRoomApply]
  | publishResults sender roomCode counts =>
    rcases hres : publishResults sender roomCode counts s with _ | s'
    · simp only [applyOp, hres, stepTx]
      exact ⟨fun h => h, fun _ h => h, fun h => h, fun h => h⟩
    · simp only [applyOp, hres, stepTx]
      obtain ⟨-, -, -, -, rfl⟩ := publishResults_ok_iff.mp hres
      exact ⟨fun h => h, fun _ h => h, fun h => h, fun h => h⟩

/-- Multi-transaction version of `applyOp_frame`. -/
theorem execOps_frame (ops : List Op) (s : ContractState) (r a : String) :
    (0 < (s.rooms r).code.length → 0 < ((execOps ops s).rooms r).code.length) ∧
    (0 < (s.rooms r).code.length → (s.rooms r).isActive = false →
      ((execOps ops s).rooms r).isActive = false) ∧
    (a ∈ s.isParticipant r → a ∈ (execOps ops s).isParticipant r) ∧
    (a ∈ s.hasVoted r → a ∈ (execOps ops s).hasVoted r) := by
  induction ops generalizing s with
  | nil => exact ⟨fun h => h, fun _ h => h, fun h => h, fun h => h⟩
  | cons op ops ih =>
    obtain ⟨f1, f2, f3, f4⟩ := applyOp_frame op s r a
    obtain ⟨g1, g2, g3, g4⟩ := ih (applyOp op s)
    rw [execOps_cons]
    exact ⟨fun h => g1 (f1 h), fun h h' => g2 (f1 h) (f2 h h'),
      fun h => g3 (f3 h), fun h => g4 (f4 h)⟩

/-- Invariant of C4: no room ever holds more participants than its
capacity. -/
def ParticipantBound (s : ContractState) : Prop :=
  ∀ r, (s.rooms r).participantCount ≤ (s.rooms r).maxParticipants

/-- Invariant: a closed room is exactly full. -/
def ClosedOnlyWhenFull (s : ContractState) : Prop :=
  ∀ r, (s.rooms r).isClosed = true →
    (s.rooms r).participantCount = (s.rooms r).maxParticipants

theorem initialState_participantBound : ParticipantBound initialState :=
  fun _ => Nat.le_refl 0

theorem initialState_closedOnlyWhenFull : ClosedOnlyWhenFull initialState :=
  fun _ h => absurd h (by simp [initialState, Room.zero])

theorem applyOp_participantBound (op : Op) (s : ContractState)
    (hs : ParticipantBound s) : ParticipantBound (applyOp op s) := by
  cases op with
  | createRoom sender roomCode title description mp et hp ph now =>
    rcases hres : createRoom sender roomCode title description mp et hp ph now s
      with _ | s'
    · simpa only [applyOp, hres, stepTx] using hs
    · simp only [applyOp, hres, stepTx]
      obtain ⟨-, -, h3, rfl⟩ := createRoom_ok_iff.mp hres
      intro r
      simp only [createRoomApply]
      by_cases hr : r = roomCode
      · rw [if_pos hr]
        exact h3
      · rw [if_neg hr]
        exact hs r
  | createRoomWithCandidatesBatch sender roomCode title description mp et hp ph ns ds us now =>
    rcases hres : createRoomWithCandidatesBatch sender roomCode title description
        mp et hp ph ns ds us now s with _ | s'
    · simpa only [applyOp, hres, stepTx] using hs
    · simp only [applyOp, hres, stepTx]
      obtain ⟨-, -, h3, -, -, rfl⟩ := createRoomWithCandidatesBatch_ok_iff.mp hres
      intro r
      obtain ⟨-, -, hmx, hpc, -, -, -, -, -⟩ :=
        addCandidatesLoop_room_fields roomCode ns ds us
          (createRoomApply sender roomCode title description mp et hp ph s) r
      rw [hmx, hpc]
      simp only [createRoomApply]
      by_cases hr : r = roomCode
      · rw [if_pos hr]
        exact h3
      · rw [if_neg hr]
        exact hs r
  | addCandidate sender roomCode name description imageUrl =>
    rcases hres : addCandidate sender roomCode name description imageUrl s
      with _ | s'
    · simpa only [applyOp, hres, stepTx] using hs
    · simp only [applyOp, hres, stepTx]
      obtain ⟨-, -, -, rfl⟩ := addCandidate_ok_iff.mp hres
      intro r
      simp only [addCandidateApply]
      by_cases hr : r = roomCode
      · rw [if_pos hr]
        exact hs roomCode
      · rw [if_neg hr]
        exact hs r
  | addCandidatesBatch sender roomCode ns ds us =>
    rcases hres : addCandidatesBatch sender roomCode ns ds us s with _ | s'
    · simpa only [applyOp, hres, stepTx] using hs
    · simp only [applyOp, hres, stepTx]
      obtain ⟨-, -, -, -, -, rfl⟩ := addCandidatesBatch_ok_iff.mp hres
      intro r
      obtain ⟨-, -, hmx, hpc, -, -, -, -, -⟩ :=
        addCandidatesLoop_room_fields roomCode ns ds us s r
      rw [hmx, hpc]
      exact hs r
  | joinRoom sender roomCode password now =>
    rcases hres : joinRoom sender roomCode password now s with _ | s'
    · simpa only [applyOp, hres, stepTx] using hs
    · simp only [applyOp, hres, stepTx]
      obtain ⟨-, -, -, -, -, h6, -, rfl⟩ := joinRoom_ok_iff.mp hres
      intro r
      simp only [joinRoomApply]
      by_cases hr : r = roomCode
      · rw [if_pos hr]
        show (s.rooms roomCode).participantCount + 1 ≤
          (s.rooms roomCode).maxParticipants
        omega
      · rw [if_neg hr]
        exact hs r
  | vote sender roomCode cid v p now =>
    rcases hres : vote sender roomCode cid v p now s with _ | s'
    · simpa only [applyOp, hres, stepTx] using hs
    · simp only [applyOp, hres, stepTx]
      obtain ⟨-, -, -, -, -, -, -, -, rfl⟩ := vote_ok_iff.mp hres
      intro r
      simp only [voteApply]
      by_cases hr : r = roomCode
      · rw [if_pos hr]
        exact hs roomCode
      · rw [if_neg hr]
        exact hs r
  | endRoom sender roomCode =>
    rcases hres : endRoom sender roomCode s with _ | s'
    · simpa only [applyOp, hres, stepTx] using hs
    · simp only [applyOp, hres, stepTx]
      obtain ⟨-, -, -, rfl⟩ := endRoom_ok_iff.mp hres
      intro r
      simp only [endRoomApply]
      by_cases hr : r = roomCode
      · rw [if_pos hr]
        exact hs roomCode
      · rw [if_neg hr]
        exact hs r
  | checkAndEndRoom sender roomCode now =>
    rcases hres : checkAndEndRoom sender roomCode now s with _ | s'
    · simpa only [applyOp, hres, stepTx] using hs
    · simp only [applyOp, hres, stepTx]
      obtain ⟨-, -, -, rfl⟩ := checkAndEndRoom_ok_iff.mp hres
      intro r
      simp only [endRoomApply]
      by_cases hr : r = roomCode
      · rw [if_pos hr]
        exact hs roomCode
      · rw [if_neg hr]
        exact hs r
  | publishResults sender roomCode counts =>
    rcases hres : publishResults sender roomCode counts s with _ | s'
    · simpa only [applyOp, hres, stepTx] using hs
    · simp only [applyOp, hres, stepTx]
      obtain ⟨-, -, -, -, rfl⟩ := publishResults_ok_iff.mp hres
      exact hs

theorem applyOp_closedOnlyWhenFull (op : Op) (s : ContractState)
    (hs : ClosedOnlyWhenFull s) : ClosedOnlyWhenFull (applyOp op s) := by
  cases op with
  | createRoom sender roomCode title description mp et hp ph now =>
    rcases hres : createRoom sender roomCode title description mp et hp ph now s
      with _ | s'
    · simpa only [applyOp, hres, stepTx] using hs
    · simp only [applyOp, hres, stepTx]
      obtain ⟨-, -, -, rfl⟩ := createRoom_ok_iff.mp hres
      intro r
      simp only [createRoomApply]
      by_cases hr : r = roomCode
      · rw [if_pos hr]
        intro hcl
        exact absurd hcl (by simp)
      · rw [if_neg hr]
        exact hs r
  | createRoomWithCandidatesBatch sender roomCode title description mp et hp ph ns ds us now =>
    rcases hres : createRoomWithCandidatesBatch sender roomCode title description
        mp et hp ph ns ds us now s with _ | s'
    · simpa only [applyOp, hres, stepTx] using hs
    · simp only [applyOp, hres, stepTx]
      obtain ⟨-, -, -, -, -, rfl⟩ := createRoomWithCandidatesBatch_ok_iff.mp hres
      intro r
      obtain ⟨-, -, hmx, hpc, -, -, -, -, hcl⟩ :=
        addCandidatesLoop_room_fields roomCode ns ds us
          (createRoomApply sender roomCode title description mp et hp ph s) r
      rw [hmx, hpc, hcl]
      simp only [createRoomApply]
      by_cases hr : r = roomCode
      · rw [if_pos hr]
        intro hcl'
        exact absurd hcl' (by simp)
      · rw [if_neg hr]
        exact hs r
  | addCandidate sender roomCode name description imageUrl =>
    rcases hres : addCandidate sender roomCode name description imageUrl s
      with _ | s'
    · simpa only [applyOp, hres, stepTx] using hs
    · simp only [applyOp, hres, stepTx]
      obtain ⟨-, -, -, rfl⟩ := addCandidate_ok_iff.mp hres
      intro r
      simp only [addCandidateApply]
      by_cases hr : r = roomCode
      · rw [if_pos hr]
        exact hs roomCode
      · rw [if_neg hr]
        exact hs r
  | addCandidatesBatch sender roomCode ns ds us =>
    rcases hres : addCandidatesBatch sender roomCode ns ds us s with _ | s'
    · simpa only [applyOp, hres, stepTx] using hs
    · simp only [applyOp, hres, stepTx]
      obtain ⟨-, -, -, -, -, rfl⟩ := addCandidatesBatch_ok_iff.mp hres
      intro r
      obtain ⟨-, -, hmx, hpc, -, -, -, -, hcl⟩ :=
        addCandidatesLoop_room_fields roomCode ns ds us s r
      rw [hmx, hpc, hcl]
      exact hs r
  | joinRoom sender roomCode password now =>
    rcases hres : joinRoom sender roomCode password now s with _ | s'
    · simpa only [applyOp, hres, stepTx] using hs
    · simp only [applyOp, hres, stepTx]
      obtain ⟨-, -, -, h4, -, h6, -, rfl⟩ := joinRoom_ok_iff.mp hres
      intro r
      simp only [joinRoomApply]
      by_cases hr : r = roomCode
      · rw [if_pos hr]
        intro hcl
        show (s.rooms roomCode).participantCount + 1 =
          (s.rooms roomCode).maxParticipants
        have hcl' : (if (s.rooms roomCode).maxParticipants ≤
            (s.rooms roomCode).participantCount + 1 then true
          else (s.rooms roomCode).isClosed) = true := hcl
        by_cases hfull : (s.rooms roomCode).maxParticipants ≤
            (s.rooms roomCode).participantCount + 1
        · omega
        · rw [if_neg hfull, h4] at hcl'
          exact absurd hcl' (by simp)
      · rw [if_neg hr]
        exact hs r
  | vote sender roomCode cid v p now =>
    rcases hres : vote sender roomCode cid v p now s with _ | s'
    · simpa only [applyOp, hres, stepTx] using hs
    · simp only [applyOp, hres, stepTx]
      obtain ⟨-, -, -, -, -, -, -, -, rfl⟩ := vote_ok_iff.mp hres
      intro r
      simp only [voteApply]
      by_cases hr : r = roomCode
      · rw [if_pos hr]
        exact hs roomCode
      · rw [if_neg hr]
        exact hs r
  | endRoom sender roomCode =>
    rcases hres : endRoom sender roomCode s with _ | s'
    · simpa only [applyOp, hres, stepTx] using hs
    · simp only [applyOp, hres, stepTx]
      obtain ⟨-, -, -, rfl⟩ := endRoom_ok_iff.mp hres
      intro r
      simp only [endRoomApply]
      by_cases hr : r = roomCode
      · rw [if_pos hr]
        exact hs roomCode
      · rw [if_neg hr]
        exact hs r
  | checkAndEndRoom sender roomCode now =>
    rcases hres : checkAndEndRoom sender roomCode now s with _ | s'
    · simpa only [applyOp, hres, stepTx] using hs
    · simp only [applyOp, hres, stepTx]
      obtain ⟨-, -, -, rfl⟩ := checkAndEndRoom_ok_iff.mp hres
      intro r
      simp only [endRoomApply]
      by_cases hr : r = roomCode
      · rw [if_pos hr]
        exact hs roomCode
      · rw [if_neg hr]
        exact hs r
  | publishResults sender roomCode counts =>
    rcases hres : publishResults sender roomCode counts s with _ | s'
    · simpa only [applyOp, hres, stepTx] using hs
    · simp only [applyOp, hres, stepTx]
      obtain ⟨-, -, -, -, rfl⟩ := publishResults_ok_iff.mp hres
      exact hs

theorem execOps_participantBound (ops : List Op) (s : ContractState)
    (hs : ParticipantBound s) : ParticipantBound (execOps ops s) := by
  induction ops generalizing s with
  | nil => exact hs
  | cons op ops ih =>
    rw [execOps_cons]
    exact ih _ (applyOp_participantBound op s hs)

theorem execOps_closedOnlyWhenFull (ops : List Op) (s : ContractState)
    (hs : ClosedOnlyWhenFull s) : ClosedOnlyWhenFull (execOps ops s) := by
  induction ops generalizing s with
  | nil => exact hs
  | cons op ops ih =>
    rw [execOps_cons]
    exact ih _ (applyOp_closedOnlyWhenFull op s hs)

theorem sum_range_add_eq_of_zero (f : Nat → Nat) (m k : Nat)
    (h : ∀ i, m ≤ i → f i = 0) :
    ∑ i ∈ Finset.range (m + k), f i = ∑ i ∈ Finset.range m, f i := by
  induction k with
  | zero => rfl
  | succ k ih =>
    rw [show m + (k + 1) = (m + k) + 1 from rfl, Finset.sum_range_succ,
      h _ (by omega), ih, Nat.add_zero]

theorem sum_range_update_add (f : Nat → Nat) (n c : Nat) (hc : c < n) :
    ∑ i ∈ Finset.range n, (if i = c then f c + 1 else f i) =
      (∑ i ∈ Finset.range n, f i) + 1 := by
  have h : ∀ i ∈ Finset.range n,
      (if i = c then f c + 1 else f i) = f i + (if i = c then 1 else 0) := by
    intro i _
    by_cases hic : i = c
    · rw [if_pos hic, if_pos hic, hic]
    · rw [if_neg hic, if_neg hic, Nat.add_zero]
  rw [Finset.sum_congr rfl h, Finset.sum_add_distrib,
    Finset.sum_ite_eq' (Finset.range n) c (fun _ => 1),
    if_pos (Finset.mem_range.mpr hc)]

/-- The vote-accounting invariant of C10: `totalVotes` equals both the sum
of the per-candidate plaintext counters and the number of voters marked in
`hasVoted`; counters at indices past `candidateCount` are still zero; and a
room slot whose stored code is empty has no vote accounting at all. -/
def TallyInv (s : ContractState) : Prop :=
  ∀ r,
    s.totalVotes r =
      ∑ i ∈ Finset.range (s.rooms r).candidateCount, s.candidateVotes r i ∧
    s.totalVotes r = (s.hasVoted r).card ∧
    (∀ i, (s.rooms r).candidateCount ≤ i → s.candidateVotes r i = 0) ∧
    ((s.rooms r).code.length = 0 →
      s.totalVotes r = 0 ∧ s.hasVoted r = ∅ ∧ ∀ i, s.candidateVotes r i = 0)

theorem initialState_tallyInv : TallyInv initialState := by
  intro r
  refine ⟨by simp [initialState, Room.zero], by simp [initialState],
    fun i _ => rfl, fun _ => ⟨rfl, rfl, fun i => rfl⟩⟩

theorem applyOp_tallyInv (op : Op) (s : ContractState) (hs : TallyInv s) :
    TallyInv (applyOp op s) := by
  cases op with
  | createRoom sender roomCode title description mp et hp ph now =>
    rcases hres : createRoom sender roomCode title description mp et hp ph now s
      with _ | s'
    · simpa only [applyOp, hres, stepTx] using hs
    · simp only [applyOp, hres, stepTx]
      obtain ⟨h1, -, -, rfl⟩ := createRoom_ok_iff.mp hres
      intro r
      have etv : (createRoomApply sender roomCode title description mp et hp ph
        s).totalVotes = s.totalVotes := rfl
      have ecv : (createRoomApply sender roomCode title description mp et hp ph
        s).candidateVotes = s.candidateVotes := rfl
      have ehv : (createRoomApply sender roomCode title description mp et hp ph
        s).hasVoted = s.hasVoted := rfl
      by_cases hr : r = roomCode
      · obtain ⟨tv0, hv0, cv0⟩ := (hs roomCode).2.2.2 h1
        have ecc : ((createRoomApply sender roomCode title description mp et hp
            ph s).rooms roomCode).candidateCount = 0 := by
          simp [createRoomApply]
        rw [hr, etv, ecv, ehv, ecc]
        refine ⟨by rw [tv0]; simp, ?_, fun i _ => cv0 i, fun _ => ⟨tv0, hv0, cv0⟩⟩
        rw [tv0, hv0]
        rfl
      · have e4 : (createRoomApply sender roomCode title description mp et hp ph
            s).rooms r = s.rooms r := by
          simp [createRoomApply, hr]
        rw [etv, ecv, ehv, e4]
        exact hs r
  | createRoomWithCandidatesBatch sender roomCode title description mp et hp ph ns ds us now =>
    rcases hres : createRoomWithCandidatesBatch sender roomCode title description
        mp et hp ph ns ds us now s with _ | s'
    · simpa only [applyOp, hres, stepTx] using hs
    · simp only [applyOp, hres, stepTx]
      obtain ⟨h1, -, -, ⟨hd, hu⟩, -, rfl⟩ :=
        createRoomWithCandidatesBatch_ok_iff.mp hres
      intro r
      obtain ⟨lhv, lip, ltv, lcv, -, -⟩ :=
        addCandidatesLoop_frame roomCode ns ds us
          (createRoomApply sender roomCode title description mp et hp ph s)
      have etv : (createRoomApply sender roomCode title description mp et hp ph
        s).totalVotes = s.totalVotes := rfl
      have ecv : (createRoomApply sender roomCode title description mp et hp ph
        s).candidateVotes = s.candidateVotes := rfl
      have ehv : (createRoomApply sender roomCode title description mp et hp ph
        s).hasVoted = s.hasVoted := rfl
      rw [ltv, lcv, lhv, etv, ecv, ehv]
      by_cases hr : r = roomCode
      · obtain ⟨tv0, hv0, cv0⟩ := (hs roomCode).2.2.2 h1
        have ecc : ((addCandidatesLoop roomCode ns ds us
            (createRoomApply sender roomCode title description mp et hp ph
              s)).rooms roomCode).candidateCount = ns.length := by
          rw [addCandidatesLoop_count roomCode ns ds us hd hu
            (createRoomApply sender roomCode title description mp et hp ph s)
            roomCode, if_pos rfl]
          simp [createRoomApply]
        rw [hr, ecc]
        refine ⟨?_, ?_, fun i _ => cv0 i, fun _ => ⟨tv0, hv0, cv0⟩⟩
        · rw [tv0]
          exact (Finset.sum_eq_zero fun i _ => cv0 i).symm
        · rw [tv0, hv0]
          rfl
      · obtain ⟨lcode, -, -, -, -, -, -, -, -⟩ :=
          addCandidatesLoop_room_fields roomCode ns ds us
            (createRoomApply sender roomCode title description mp et hp ph s) r
        have ecc : ((addCandidatesLoop roomCode ns ds us
            (createRoomApply sender roomCode title description mp et hp ph
              s)).rooms r).candidateCount = (s.rooms r).candidateCount := by
          rw [addCandidatesLoop_count roomCode ns ds us hd hu
            (createRoomApply sender roomCode title description mp et hp ph s) r,
            if_neg hr]
          simp [createRoomApply, hr]
        have ecode : ((addCandidatesLoop roomCode ns ds us
            (createRoomApply sender roomCode title description mp et hp ph
              s)).rooms r).code = (s.rooms r).code := by
          rw [lcode]
          simp [createRoomApply, hr]
        rw [ecc, ecode]
        exact hs r
  | addCandidate sender roomCode name description imageUrl =>
    rcases hres : addCandidate sender roomCode name description imageUrl s
      with _ | s'
    · simpa only [applyOp, hres, stepTx] using hs
    · simp only [applyOp, hres, stepTx]
      obtain ⟨h1, -, -, rfl⟩ := addCandidate_ok_iff.mp hres
      intro r
      have etv : (addCandidateApply roomCode name description imageUrl
        s).totalVotes = s.totalVotes := rfl
      have ecv : (addCandidateApply roomCode name description imageUrl
        s).candidateVotes = s.candidateVotes := rfl
      have ehv : (addCandidateApply roomCode name description imageUrl
        s).hasVoted = s.hasVoted := rfl
      rw [etv, ecv, ehv]
      by_cases hr : r = roomCode
      · obtain ⟨u1, u2, u3, -⟩ := hs roomCode
        have ecc : ((addCandidateApply roomCode name description imageUrl
            s).rooms roomCode).candidateCount =
            (s.rooms roomCode).candidateCount + 1 := by
          simp [addCandidateApply]
        have ecode : ((addCandidateApply roomCode name description imageUrl
            s).rooms roomCode).code = (s.rooms roomCode).code := by
          simp [addCandidateApply]
        rw [hr, ecc, ecode]
        refine ⟨?_, u2, fun i hi => u3 i (by omega), fun hc => absurd hc (by omega)⟩
        rw [Finset.sum_range_succ, u3 _ (Nat.le_refl _), Nat.add_zero]
        exact u1
      · have e4 : (addCandidateApply roomCode name description imageUrl
            s).rooms r = s.rooms r := by
          simp [addCandidateApply, hr]
        rw [e4]
        exact hs r
  | addCandidatesBatch sender roomCode ns ds us =>
    rcases hres : addCandidatesBatch sender roomCode ns ds us s with _ | s'
    · simpa only [applyOp, hres, stepTx] using hs
    · simp only [applyOp, hres, stepTx]
      obtain ⟨h1, -, -, ⟨hd, hu⟩, -, rfl⟩ := addCandidatesBatch_ok_iff.mp hres
      intro r
      obtain ⟨lhv, lip, ltv, lcv, -, -⟩ := addCandidatesLoop_frame roomCode ns ds us s
      obtain ⟨lcode, -, -, -, -, -, -, -, -⟩ :=
        addCandidatesLoop_room_fields roomCode ns ds us s r
      rw [ltv, lcv, lhv, lcode]
      by_cases hr : r = roomCode
      · obtain ⟨u1, u2, u3, -⟩ := hs roomCode
        have ecc : ((addCandidatesLoop roomCode ns ds us s).rooms
            r).candidateCount =
            (s.rooms roomCode).candidateCount + ns.length := by
          rw [addCandidatesLoop_count roomCode ns ds us hd hu s r, if_pos hr]
        rw [ecc, hr]
        refine ⟨?_, u2, fun i hi => u3 i (by omega),
          fun hc => absurd hc (by omega)⟩
        rw [sum_range_add_eq_of_zero (s.candidateVotes roomCode) _ _ u3]
        exact u1
      · have ecc : ((addCandidatesLoop roomCode ns ds us s).rooms
            r).candidateCount = (s.rooms r).candidateCount := by
          rw [addCandidatesLoop_count roomCode ns ds us hd hu s r, if_neg hr]
        rw [ecc]
        exact hs r
  | joinRoom sender roomCode password now =>
    rcases hres : joinRoom sender roomCode password now s with _ | s'
    · simpa only [applyOp, hres, stepTx] using hs
    · simp only [applyOp, hres, stepTx]
      obtain ⟨h1, -, -, -, -, -, -, rfl⟩ := joinRoom_ok_iff.mp hres
      intro r
      have etv : (joinRoomApply sender roomCode s).totalVotes = s.totalVotes := rfl
      have ecv : (joinRoomApply sender roomCode s).candidateVotes =
        s.candidateVotes := rfl
      have ehv : (joinRoomApply sender roomCode s).hasVoted = s.hasVoted := rfl
      rw [etv, ecv, ehv]
      by_cases hr : r = roomCode
      · have ecc : ((joinRoomApply sender roomCode s).rooms
            roomCode).candidateCount = (s.rooms roomCode).candidateCount := by
          simp [joinRoomApply]
        have ecode : ((joinRoomApply sender roomCode s).rooms roomCode).code =
            (s.rooms roomCode).code := by
          simp [joinRoomApply]
        rw [hr, ecc, ecode]
        exact hs roomCode
      · have e4 : (joinRoomApply sender roomCode s).rooms r = s.rooms r := by
          simp [joinRoomApply, hr]
        rw [e4]
        exact hs r
  | vote sender roomCode cid v p now =>
    rcases hres : vote sender roomCode cid v p now s with _ | s'
    · simpa only [applyOp, hres, stepTx] using hs
    · simp only [applyOp, hres, stepTx]
      obtain ⟨h1, -, h3, -, -, h6, -, -, rfl⟩ := vote_ok_iff.mp hres
      intro r
      by_cases hr : r = roomCode
      · obtain ⟨u1, u2, u3, -⟩ := hs roomCode
        have e1 : (voteApply sender roomCode cid v s).totalVotes roomCode =
            s.totalVotes roomCode + 1 := by
          simp [voteApply]
        have e2 : ∀ i, (voteApply sender roomCode cid v s).candidateVotes
            roomCode i =
            if i = cid then s.candidateVotes roomCode cid + 1
            else s.candidateVotes roomCode i := by
          intro i
          simp [voteApply]
        have e3 : (voteApply sender roomCode cid v s).hasVoted roomCode =
            insert sender (s.hasVoted roomCode) := by
          simp [voteApply]
        have ecc : ((voteApply sender roomCode cid v s).rooms
            roomCode).candidateCount = (s.rooms roomCode).candidateCount := by
          simp [voteApply]
        have ecode : ((voteApply sender roomCode cid v s).rooms roomCode).code =
            (s.rooms roomCode).code := by
          simp [voteApply]
        rw [hr, e1, e3, ecc, ecode]
        refine ⟨?_, ?_, ?_, fun hc => absurd hc (by omega)⟩
        · rw [show (∑ i ∈ Finset.range (s.rooms roomCode).candidateCount,
              (voteApply sender roomCode cid v s).candidateVotes roomCode i) =
              ∑ i ∈ Finset.range (s.rooms roomCode).candidateCount,
                (if i = cid then s.candidateVotes roomCode cid + 1
                  else s.candidateVotes roomCode i) from
              Finset.sum_congr rfl fun i _ => e2 i,
            sum_range_update_add (s.candidateVotes roomCode) _ cid h6, u1]
        · rw [Finset.card_insert_of_not_mem h3, u2]
        · intro i hi
          rw [e2 i, if_neg (by omega)]
          exact u3 i hi
      · have f1 : (voteApply sender roomCode cid v s).totalVotes r =
            s.totalVotes r := by
          simp [voteApply, hr]
        have f2 : ∀ i, (voteApply sender roomCode cid v s).candidateVotes r i =
            s.candidateVotes r i := by
          intro i
          simp [voteApply, hr]
        have f3 : (voteApply sender roomCode cid v s).hasVoted r =
            s.hasVoted r := by
          simp [voteApply, hr]
        have f4 : (voteApply sender roomCode cid v s).rooms r = s.rooms r := by
          simp [voteApply, hr]
        simp only [f1, f2, f3, f4]
        exact hs r
  | endRoom sender roomCode =>
    rcases hres : endRoom sender roomCode s with _ | s'
    · simpa only [applyOp, hres, stepTx] using hs
    · simp only [applyOp, hres, stepTx]
      obtain ⟨-, -, -, rfl⟩ := endRoom_ok_iff.mp hres
      intro r
      by_cases hr : r = roomCode
      · have ecc : ((endRoomApply roomCode s).rooms roomCode).candidateCount =
            (s.rooms roomCode).candidateCount := by
          simp [endRoomApply]
        have ecode : ((endRoomApply roomCode s).rooms roomCode).code =
            (s.rooms roomCode).code := by
          simp [endRoomApply]
        rw [hr]
        rw [show (endRoomApply roomCode s).totalVotes = s.totalVotes from rfl,
          show (endRoomApply roomCode s).candidateVotes = s.candidateVotes from rfl,
          show (endRoomApply roomCode s).hasVoted = s.hasVoted from rfl,
          ecc, ecode]
        exact hs roomCode
      · have e4 : (endRoomApply roomCode s).rooms r = s.rooms r := by
          simp [endRoomApply, hr]
        rw [show (endRoomApply roomCode s).totalVotes = s.totalVotes from rfl,
          show (endRoomApply roomCode s).candidateVotes = s.candidateVotes from rfl,
          show (endRoomApply roomCode s).hasVoted = s.hasVoted from rfl, e4]
        exact hs r
  | checkAndEndRoom sender roomCode now =>
    rcases hres : checkAndEndRoom sender roomCode now s with _ | s'
    · simpa only [applyOp, hres, stepTx] using hs
    · simp only [applyOp, hres, stepTx]
      obtain ⟨-, -, -, rfl⟩ := checkAndEndRoom_ok_iff.mp hres
      intro r
      by_cases hr : r = roomCode
      · have ecc : ((endRoomApply roomCode s).rooms roomCode).candidateCount =
            (s.rooms roomCode).candidateCount := by
          simp [endRoomApply]
        have ecode : ((endRoomApply roomCode s).rooms roomCode).code =
            (s.rooms roomCode).code := by
          simp [endRoomApply]
        rw [hr]
        rw [show (endRoomApply roomCode s).totalVotes = s.totalVotes from rfl,
          show (endRoomApply roomCode s).candidateVotes = s.candidateVotes from rfl,
          show (endRoomApply roomCode s).hasVoted = s.hasVoted from rfl,
          ecc, ecode]
        exact hs roomCode
      · have e4 : (endRoomApply roomCode s).rooms r = s.rooms r := by
          simp [endRoomApply, hr]
        rw [show (endRoomApply roomCode s).totalVotes = s.totalVotes from rfl,
          show (endRoomApply roomCode s).candidateVotes = s.candidateVotes from rfl,
          show (endRoomApply roomCode s).hasVoted = s.hasVoted from rfl, e4]
        exact hs r
  | publishResults sender roomCode counts =>
    rcases hres : publishResults sender roomCode counts s with _ | s'
    · simpa only [applyOp, hres, stepTx] using hs
    · simp only [applyOp, hres, stepTx]
      obtain ⟨-, -, -, -, rfl⟩ := publishResults_ok_iff.mp hres
      exact hs

theorem execOps_tallyInv (ops : List Op) (s : ContractState)
    (hs : TallyInv s) : TallyInv (execOps ops s) := by
  induction ops generalizing s with
  | nil => exact hs
  | cons op ops ih =>
    rw [execOps_cons]
    exact ih _ (applyOp_tallyInv op s hs)

theorem vote_already_voted (sender roomCode : String) (cid v : Nat) (p : Bool)
    (now : Nat) (s : ContractState) (hex : 0 < (s.rooms roomCode).code.length)
    (hp : sender ∈ s.isParticipant roomCode)
    (hv : sender ∈ s.hasVoted roomCode) :
    vote sender roomCode cid v p now s = .error "Already voted in this room" := by
  unfold vote
  rw [if_pos hex, if_pos hp, if_neg (not_not_intro hv)]

theorem vote_error_of_inactive (sender roomCode : String) (cid v : Nat)
    (p : Bool) (now : Nat) (s : ContractState)
    (hdead : (s.rooms roomCode).isActive = false) :
    ∃ e, vote sender roomCode cid v p now s = .error e := by
  unfold vote
  split_ifs <;> first | exact ⟨_, rfl⟩ | simp_all

theorem endRoom_error_of_inactive (sender roomCode : String)
    (s : ContractState) (hdead : (s.rooms roomCode).isActive = false) :
    ∃ e, endRoom sender roomCode s = .error e := by
  unfold endRoom
  split_ifs <;> first | exact ⟨_, rfl⟩ | simp_all

theorem checkAndEndRoom_already_ended (sender roomCode : String) (now : Nat)
    (s : ContractState) (hex : 0 < (s.rooms roomCode).code.length)
    (hdead : (s.rooms roomCode).isActive = false) :
    checkAndEndRoom sender roomCode now s = .error "Room already ended" := by
  unfold checkAndEndRoom
  rw [if_pos hex, if_neg (by simp [hdead])]

/-- Claim C1: after an identity's first successful `vote` in a room, any
later `vote` call by the same identity on that room — immediately or after
any number of further transactions — reverts with the
"Already voted in this room" condition, and the reverted call commits no
state change, so `totalVotes` and `candidateVotes` are untouched. -/
theorem vote_once_per_identity (sender roomCode : String) (cid v : Nat)
    (p : Bool) (now : Nat) (s s₁ : ContractState)
    (h : vote sender roomCode cid v p now s = .ok s₁)
    (ops : List Op) (cid' v' : Nat) (p' : Bool) (now' : Nat) :
    vote sender roomCode cid' v' p' now' (execOps ops s₁) =
      .error "Already voted in this room" ∧
    stepTx (vote sender roomCode cid' v' p' now' (execOps ops s₁))
      (execOps ops s₁) = execOps ops s₁ := by
  obtain ⟨h1, h2, -, -, -, -, -, -, rfl⟩ := vote_ok_iff.mp h
  have hex1 : 0 < ((voteApply sender roomCode cid v s).rooms
      roomCode).code.length := by
    have e : ((voteApply sender roomCode cid v s).rooms roomCode).code =
        (s.rooms roomCode).code := by
      simp [voteApply]
    rw [e]
    exact h1
  have hp1 : sender ∈ (voteApply sender roomCode cid v s).isParticipant
      roomCode := h2
  have hv1 : sender ∈ (voteApply sender roomCode cid v s).hasVoted roomCode := by
    have e : (voteApply sender roomCode cid v s).hasVoted roomCode =
        insert sender (s.hasVoted roomCode) := by
      simp [voteApply]
    rw [e]
    exact Finset.mem_insert_self sender _
  obtain ⟨g1, -, g3, g4⟩ :=
    execOps_frame ops (voteApply sender roomCode cid v s) roomCode sender
  have herr := vote_already_voted sender roomCode cid' v' p' now'
    (execOps ops (voteApply sender roomCode cid v s))
    (g1 hex1) (g3 hp1) (g4 hv1)
  exact ⟨herr, stepTx_of_error herr⟩

/-- Claim C2: when a successful `vote` raises `totalVotes[roomCode]` to at
least the room's `maxParticipants`, that same transaction sets `isActive`
to false, and every `vote` on that room submitted after it — at any later
reachable state — reverts. -/
theorem vote_autoclose_terminal (sender roomCode : String) (cid v : Nat)
    (p : Bool) (now : Nat) (s s₁ : ContractState)
    (h : vote sender roomCode cid v p now s = .ok s₁)
    (hfull : (s₁.rooms roomCode).maxParticipants ≤ s₁.totalVotes roomCode) :
    (s₁.rooms roomCode).isActive = false ∧
    ∀ (ops : List Op) (sender' : String) (cid' v' : Nat) (p' : Bool)
      (now' : Nat),
      ∃ e, vote sender' roomCode cid' v' p' now' (execOps ops s₁) =
        .error e := by
  obtain ⟨h1, -, -, -, -, -, -, -, rfl⟩ := vote_ok_iff.mp h
  have emx : ((voteApply sender roomCode cid v s).rooms
      roomCode).maxParticipants = (s.rooms roomCode).maxParticipants := by
    simp [voteApply]
  have etv : (voteApply sender roomCode cid v s).totalVotes roomCode =
      s.totalVotes roomCode + 1 := by
    simp [voteApply]
  rw [emx, etv] at hfull
  have hdead : ((voteApply sender roomCode cid v s).rooms roomCode).isActive =
      false := by
    simp [voteApply, hfull]
  refine ⟨hdead, fun ops sender' cid' v' p' now' => ?_⟩
  have hex1 : 0 < ((voteApply sender roomCode cid v s).rooms
      roomCode).code.length := by
    have e : ((voteApply sender roomCode cid v s).rooms roomCode).code =
        (s.rooms roomCode).code := by
      simp [voteApply]
    rw [e]
    exact h1
  obtain ⟨g1, g2, -, -⟩ :=
    execOps_frame ops (voteApply sender roomCode cid v s) roomCode sender'
  exact vote_error_of_inactive sender' roomCode cid' v' p' now' _
    (g2 hex1 hdead)

theorem vote_once_per_identity_witness :
    vote "alice" "R1" 1 1 true 6
      (stepTx (vote "alice" "R1" 0 1 true 5
        (stepTx (createRoomWithCandidatesBatch "alice" "R1" "t" "d" 2 10 false 0
          ["A", "B"] ["da", "db"] ["ua", "ub"] 0 initialState) initialState))
        (stepTx (createRoomWithCandidatesBatch "alice" "R1" "t" "d" 2 10 false 0
          ["A", "B"] ["da", "db"] ["ua", "ub"] 0 initialState) initialState)) =
      .error "Already voted in this room" :=
  (vote_once_per_identity "alice" "R1" 0 1 true 5
    (stepTx (createRoomWithCandidatesBatch "alice" "R1" "t" "d" 2 10 false 0
      ["A", "B"] ["da", "db"] ["ua", "ub"] 0 initialState) initialState)
    (stepTx (vote "alice" "R1" 0 1 true 5
      (stepTx (createRoomWithCandidatesBatch "alice" "R1" "t" "d" 2 10 false 0
        ["A", "B"] ["da", "db"] ["ua", "ub"] 0 initialState) initialState))
      (stepTx (createRoomWithCandidatesBatch "alice" "R1" "t" "d" 2 10 false 0
        ["A", "B"] ["da", "db"] ["ua", "ub"] 0 initialState) initialState))
    rfl [] 1 1 true 6).1

theorem vote_autoclose_terminal_witness :
    ((stepTx (vote "alice" "R1" 0 1 true 5
      (stepTx (createRoomWithCandidatesBatch "alice" "R1" "t" "d" 1 10 false 0
        ["A", "B"] ["da", "db"] ["ua", "ub"] 0 initialState) initialState))
      (stepTx (createRoomWithCandidatesBatch "alice" "R1" "t" "d" 1 10 false 0
        ["A", "B"] ["da", "db"] ["ua", "ub"] 0 initialState)
        initialState)).rooms "R1").isActive = false :=
  (vote_autoclose_terminal "alice" "R1" 0 1 true 5
    (stepTx (createRoomWithCandidatesBatch "alice" "R1" "t" "d" 1 10 false 0
      ["A", "B"] ["da", "db"] ["ua", "ub"] 0 initialState) initialState)
    (stepTx (vote "alice" "R1" 0 1 true 5
      (stepTx (createRoomWithCandidatesBatch "alice" "R1" "t" "d" 1 10 false 0
        ["A", "B"] ["da", "db"] ["ua", "ub"] 0 initialState) initialState))
      (stepTx (createRoomWithCandidatesBatch "alice" "R1" "t" "d" 1 10 false 0
        ["A", "B"] ["da", "db"] ["ua", "ub"] 0 initialState) initialState))
    rfl (by decide)).1

/-- Claim C3, counterexample: immediately after `createRoom` with
`maxParticipants = 1` the room has `participantCount = maxParticipants`
(the creator auto-joins) but `isClosed` is still false — only `joinRoom`
ever sets `isClosed`, so the claimed "iff" fails at this state. -/
theorem createRoom_full_room_not_closed :
    ¬(((stepTx (createRoom "alice" "R1" "t" "d" 1 10 false 0 0 initialState)
          initialState).rooms "R1").isClosed = true ↔
      ((stepTx (createRoom "alice" "R1" "t" "d" 1 10 false 0 0 initialState)
          initialState).rooms "R1").participantCount =
        ((stepTx (createRoom "alice" "R1" "t" "d" 1 10 false 0 0 initialState)
          initialState).rooms "R1").maxParticipants) := by
  decide

/-- Claim C3 (amended): at every state reachable from deployment,
`isClosed = true` implies `participantCount = maxParticipants`; and after a
`joinRoom` that brings `participantCount` up to `maxParticipants`,
`isClosed` is true. The unrestricted "iff" is refuted by a fresh room
created with `maxParticipants = 1`, whose creator fills it at creation
without `isClosed` ever being set. -/
theorem isClosed_iff_full_amended :
    (∀ (ops : List Op) (r : String),
      ((execOps ops initialState).rooms r).isClosed = true →
      ((execOps ops initialState).rooms r).participantCount =
        ((execOps ops initialState).rooms r).maxParticipants) ∧
    (∀ (sender roomCode password : String) (now : Nat)
      (s s' : ContractState),
      joinRoom sender roomCode password now s = .ok s' →
      (s'.rooms roomCode).participantCount =
        (s'.rooms roomCode).maxParticipants →
      (s'.rooms roomCode).isClosed = true) := by
  constructor
  · intro ops r
    exact execOps_closedOnlyWhenFull ops initialState
      initialState_closedOnlyWhenFull r
  · intro sender roomCode password now s s' h hfull
    obtain ⟨-, -, -, -, -, h6, -, rfl⟩ := joinRoom_ok_iff.mp h
    have epc : ((joinRoomApply sender roomCode s).rooms
        roomCode).participantCount =
        (s.rooms roomCode).participantCount + 1 := by
      simp [joinRoomApply]
    have emx : ((joinRoomApply sender roomCode s).rooms
        roomCode).maxParticipants = (s.rooms roomCode).maxParticipants := by
      simp [joinRoomApply]
    rw [epc, emx] at hfull
    have hge : (s.rooms roomCode).maxParticipants ≤
        (s.rooms roomCode).participantCount + 1 := by omega
    simp [joinRoomApply, hge]

theorem isClosed_iff_full_amended_witness :
    ((execOps [Op.createRoom "alice" "R1" "t" "d" 2 10 false 0 0,
        Op.joinRoom "bob" "R1" "" 5] initialState).rooms
      "R1").participantCount =
      ((execOps [Op.createRoom "alice" "R1" "t" "d" 2 10 false 0 0,
        Op.joinRoom "bob" "R1" "" 5] initialState).rooms
        "R1").maxParticipants ∧
    ((stepTx (joinRoom "bob" "R1" "" 5
      (stepTx (createRoom "alice" "R1" "t" "d" 2 10 false 0 0 initialState)
        initialState))
      (stepTx (createRoom "alice" "R1" "t" "d" 2 10 false 0 0 initialState)
        initialState)).rooms "R1").isClosed = true :=
  ⟨isClosed_iff_full_amended.1
    [Op.createRoom "alice" "R1" "t" "d" 2 10 false 0 0,
      Op.joinRoom "bob" "R1" "" 5] "R1" (by decide),
   isClosed_iff_full_amended.2 "bob" "R1" "" 5
    (stepTx (createRoom "alice" "R1" "t" "d" 2 10 false 0 0 initialState)
      initialState)
    (stepTx (joinRoom "bob" "R1" "" 5
      (stepTx (createRoom "alice" "R1" "t" "d" 2 10 false 0 0 initialState)
        initialState))
      (stepTx (createRoom "alice" "R1" "t" "d" 2 10 false 0 0 initialState)
        initialState))
    rfl (by decide)⟩

/-- Claim C4: at every state reachable from deployment every room satisfies
`participantCount ≤ maxParticipants`, and every single transaction — of any
kind — preserves the bound from any state satisfying it. -/
theorem participantCount_le_maxParticipants :
    (∀ (ops : List Op) (r : String),
      ((execOps ops initialState).rooms r).participantCount ≤
        ((execOps ops initialState).rooms r).maxParticipants) ∧
    (∀ (op : Op) (s : ContractState),
      ParticipantBound s → ParticipantBound (applyOp op s)) :=
  ⟨fun ops r => execOps_participantBound ops initialState
      initialState_participantBound r,
   applyOp_participantBound⟩

theorem participantCount_le_maxParticipants_witness :
    ((execOps [Op.createRoom "alice" "R1" "t" "d" 2 10 false 0 0]
        initialState).rooms "R1").participantCount ≤
      ((execOps [Op.createRoom "alice" "R1" "t" "d" 2 10 false 0 0]
        initialState).rooms "R1").maxParticipants ∧
    ParticipantBound (applyOp (Op.joinRoom "bob" "R1" "" 5)
      (execOps [Op.createRoom "alice" "R1" "t" "d" 2 10 false 0 0]
        initialState)) :=
  ⟨participantCount_le_maxParticipants.1
      [Op.createRoom "alice" "R1" "t" "d" 2 10 false 0 0] "R1",
   participantCount_le_maxParticipants.2 (Op.joinRoom "bob" "R1" "" 5)
    (execOps [Op.createRoom "alice" "R1" "t" "d" 2 10 false 0 0] initialState)
    (fun r => participantCount_le_maxParticipants.1
      [Op.createRoom "alice" "R1" "t" "d" 2 10 false 0 0] r)⟩

/-- Claim C5: `joinRoom` reverts with "Invalid password" exactly when the
room exists, is active, is not past `endTime`, is not closed, the caller is
not yet a participant, the room is not full, the room has a password, and
the hash of the supplied plaintext differs from the stored hash. The gates
are checked in that order, so a caller failing an earlier gate gets that
gate's error instead; and any reverted `joinRoom` leaves
`participantCount` unchanged. -/
theorem joinRoom_invalid_password_iff (sender roomCode password : String)
    (now : Nat) (s : ContractState) :
    (joinRoom sender roomCode password now s = .error "Invalid password" ↔
      0 < (s.rooms roomCode).code.length ∧
      (s.rooms roomCode).isActive = true ∧
      now < (s.rooms roomCode).endTime ∧
      (s.rooms roomCode).isClosed = false ∧
      sender ∉ s.isParticipant roomCode ∧
      (s.rooms roomCode).participantCount <
        (s.rooms roomCode).maxParticipants ∧
      (s.rooms roomCode).hasPassword = true ∧
      keccak256 password ≠ (s.rooms roomCode).passwordHash) ∧
    (∀ e, joinRoom sender roomCode password now s = .error e →
      ((stepTx (joinRoom sender roomCode password now s) s).rooms
        roomCode).participantCount = (s.rooms roomCode).participantCount) := by
  constructor
  · constructor
    · intro h
      unfold joinRoom at h
      split_ifs at h with h1 h2 h3 h4 h5 h6 h7
      all_goals
        first
          | exact ⟨h1, h2, h3, by simpa using h4, h5, h6, h7.1, h7.2⟩
          | exact absurd (Except.error.inj h) (by decide)
    · rintro ⟨h1, h2, h3, h4, h5, h6, h7, h8⟩
      unfold joinRoom
      rw [if_pos h1, if_pos h2, if_pos h3, if_pos (by simp [h4]), if_pos h5,
        if_pos h6, if_pos ⟨h7, h8⟩]
  · intro e he
    rw [stepTx_of_error he]

theorem joinRoom_invalid_password_iff_witness :
    joinRoom "bob" "R1" "wrong" 5
      (stepTx (createRoom "alice" "R1" "t" "d" 2 10 true (keccak256 "pw") 0
        initialState) initialState) = .error "Invalid password" :=
  (joinRoom_invalid_password_iff "bob" "R1" "wrong" 5
    (stepTx (createRoom "alice" "R1" "t" "d" 2 10 true (keccak256 "pw") 0
      initialState) initialState)).1.mpr (by decide)

/-- Claim C6: once an existing room's `isActive` is false it never becomes
true again under any transaction (so along every run the flag transitions
true→false at most once), and each of the three deactivating operations
reverts on it: `endRoom` (with "Room already ended" for the creator, and
with some earlier-gate error for anyone else), `checkAndEndRoom` (with
"Room already ended"), and `vote`. -/
theorem isActive_transition_terminal (roomCode : String) (s : ContractState)
    (hex : 0 < (s.rooms roomCode).code.length)
    (hdead : (s.rooms roomCode).isActive = false) :
    (∀ ops : List Op, ((execOps ops s).rooms roomCode).isActive = false) ∧
    (∀ sender, sender = (s.rooms roomCode).creator →
      endRoom sender roomCode s = .error "Room already ended") ∧
    (∀ sender, ∃ e, endRoom sender roomCode s = .error e) ∧
    (∀ (sender : String) (now : Nat),
      checkAndEndRoom sender roomCode now s = .error "Room already ended") ∧
    (∀ (sender : String) (cid v : Nat) (p : Bool) (now : Nat),
      ∃ e, vote sender roomCode cid v p now s = .error e) := by
  refine ⟨fun ops => (execOps_frame ops s roomCode "").2.1 hex hdead,
    ?_, ?_, ?_, ?_⟩
  · intro sender hcr
    unfold endRoom
    rw [if_pos hex, if_pos hcr, if_neg (by simp [hdead])]
  · intro sender
    exact endRoom_error_of_inactive sender roomCode s hdead
  · intro sender now
    exact checkAndEndRoom_already_ended sender roomCode now s hex hdead
  · intro sender cid v p now
    exact vote_error_of_inactive sender roomCode cid v p now s hdead

theorem isActive_transition_terminal_witness :
    checkAndEndRoom "carol" "R1" 99
      (stepTx (endRoom "alice" "R1"
        (stepTx (createRoom "alice" "R1" "t" "d" 2 10 false 0 0 initialState)
          initialState))
        (stepTx (createRoom "alice" "R1" "t" "d" 2 10 false 0 0 initialState)
          initialState)) = .error "Room already ended" :=
  (isActive_transition_terminal "R1"
    (stepTx (endRoom "alice" "R1"
      (stepTx (createRoom "alice" "R1" "t" "d" 2 10 false 0 0 initialState)
        initialState))
      (stepTx (createRoom "alice" "R1" "t" "d" 2 10 false 0 0 initialState)
        initialState))
    (by decide) (by decide)).2.2.2.1 "carol" 99

/-- Claim C7: on an existing active room, `checkAndEndRoom` — callable by
anyone, the caller is never inspected — reverts with
"Room has not ended yet" strictly before `endTime`, and succeeds at or
after `endTime`, clearing `isActive`; after that success, every further
`checkAndEndRoom` on the room, at any later reachable state, reverts with
"Room already ended". -/
theorem checkAndEndRoom_time_gate (sender roomCode : String) (now : Nat)
    (s : ContractState) (hex : 0 < (s.rooms roomCode).code.length)
    (hact : (s.rooms roomCode).isActive = true) :
    (now < (s.rooms roomCode).endTime →
      checkAndEndRoom sender roomCode now s =
        .error "Room has not ended yet") ∧
    ((s.rooms roomCode).endTime ≤ now →
      ∃ s', checkAndEndRoom sender roomCode now s = .ok s' ∧
        (s'.rooms roomCode).isActive = false ∧
        ∀ (ops : List Op) (sender' : String) (now' : Nat),
          checkAndEndRoom sender' roomCode now' (execOps ops s') =
            .error "Room already ended") := by
  constructor
  · intro hlt
    unfold checkAndEndRoom
    rw [if_pos hex, if_pos hact, if_neg (by omega)]
  · intro hge
    refine ⟨endRoomApply roomCode s,
      checkAndEndRoom_ok_iff.mpr ⟨hex, hact, hge, rfl⟩, by simp [endRoomApply],
      ?_⟩
    intro ops sender' now'
    have hex1 : 0 < ((endRoomApply roomCode s).rooms roomCode).code.length := by
      have e : ((endRoomApply roomCode s).rooms roomCode).code =
          (s.rooms roomCode).code := by
        simp [endRoomApply]
      rw [e]
      exact hex
    have hdead1 : ((endRoomApply roomCode s).rooms roomCode).isActive =
        false := by
      simp [endRoomApply]
    obtain ⟨g1, g2, -, -⟩ := execOps_frame ops (endRoomApply roomCode s)
      roomCode ""
    exact checkAndEndRoom_already_ended sender' roomCode now' _
      (g1 hex1) (g2 hex1 hdead1)

theorem checkAndEndRoom_time_gate_witness :
    checkAndEndRoom "carol" "R1" 3
      (stepTx (createRoom "alice" "R1" "t" "d" 2 10 false 0 0 initialState)
        initialState) = .error "Room has not ended yet" :=
  (checkAndEndRoom_time_gate "carol" "R1" 3
    (stepTx (createRoom "alice" "R1" "t" "d" 2 10 false 0 0 initialState)
      initialState) (by decide) (by decide)).1 (by decide)

/-- Claim C8: `publishResults` reverts for a non-creator caller, reverts
while `isActive` is still true, and reverts when the supplied array's
length differs from `candidateCount`; on success it stores the supplied
plaintext counts so that `getClearResults` returns `candidateVoteCounts[i]`
for every index below `candidateCount`, sets `resultsPublished`, and can be
called again with different numbers that replace the stored values — no
hypothesis relates the numbers to the `candidateVotes` counters or the
encrypted totals. -/
theorem publishResults_spec (sender roomCode : String)
    (counts counts₂ : List Nat) (s : ContractState)
    (hex : 0 < (s.rooms roomCode).code.length) :
    (sender ≠ (s.rooms roomCode).creator →
      publishResults sender roomCode counts s =
        .error "Only creator can publish results") ∧
    (sender = (s.rooms roomCode).creator → (s.rooms roomCode).isActive = true →
      publishResults sender roomCode counts s =
        .error "Room must be ended to publish results") ∧
    (sender = (s.rooms roomCode).creator →
      (s.rooms roomCode).isActive = false →
      counts.length ≠ (s.rooms roomCode).candidateCount →
      publishResults sender roomCode counts s =
        .error "Invalid candidate votes length") ∧
    (sender = (s.rooms roomCode).creator →
      (s.rooms roomCode).isActive = false →
      counts.length = (s.rooms roomCode).candidateCount →
      ∃ s', publishResults sender roomCode counts s = .ok s' ∧
        s'.resultsPublished roomCode = true ∧
        (∀ i, i < (s.rooms roomCode).candidateCount →
          getClearResults roomCode i s' = .ok (counts.getD i 0)) ∧
        (counts₂.length = (s.rooms roomCode).candidateCount →
          ∃ s'', publishResults sender roomCode counts₂ s' = .ok s'' ∧
            ∀ i, i < (s.rooms roomCode).candidateCount →
              getClearResults roomCode i s'' = .ok (counts₂.getD i 0))) := by
  refine ⟨?_, ?_, ?_, ?_⟩
  · intro hne
    unfold publishResults
    rw [if_pos hex, if_neg hne]
  · intro hcr hact
    unfold publishResults
    rw [if_pos hex, if_pos hcr, if_neg (by simp [hact])]
  · intro hcr hact hlen
    unfold publishResults
    rw [if_pos hex, if_pos hcr, if_pos (by simp [hact]), if_neg hlen]
  · intro hcr hact hlen
    refine ⟨publishResultsApply roomCode counts s,
      publishResults_ok_iff.mpr ⟨hex, hcr, hact, hlen, rfl⟩, ?_, ?_, ?_⟩
    · show (if roomCode = roomCode then true
        else s.resultsPublished roomCode) = true
      rw [if_pos rfl]
    · intro i hi
      have erooms : (publishResultsApply roomCode counts s).rooms = s.rooms :=
        rfl
      have epub : (publishResultsApply roomCode counts
          s).resultsPublished roomCode = true := by
        show (if roomCode = roomCode then true
          else s.resultsPublished roomCode) = true
        rw [if_pos rfl]
      have ecr : (publishResultsApply roomCode counts s).clearResults
          roomCode i = counts.getD i 0 := by
        show (if roomCode = roomCode ∧ i < counts.length then counts.getD i 0
          else s.clearResults roomCode i) = counts.getD i 0
        rw [if_pos ⟨rfl, by omega⟩]
      unfold getClearResults
      rw [erooms, if_pos hex, if_pos epub, if_pos hi, ecr]
    · intro hlen₂
      refine ⟨publishResultsApply roomCode counts₂
        (publishResultsApply roomCode counts s),
        publishResults_ok_iff.mpr ⟨hex, hcr, hact, hlen₂, rfl⟩, ?_⟩
      intro i hi
      have erooms : (publishResultsApply roomCode counts₂
          (publishResultsApply roomCode counts s)).rooms = s.rooms := rfl
      have epub : (publishResultsApply roomCode counts₂
          (publishResultsApply roomCode counts s)).resultsPublished
          roomCode = true := by
        show (if roomCode = roomCode then true
          else (publishResultsApply roomCode counts
            s).resultsPublished roomCode) = true
        rw [if_pos rfl]
      have ecr : (publishResultsApply roomCode counts₂
          (publishResultsApply roomCode counts s)).clearResults roomCode i =
          counts₂.getD i 0 := by
        show (if roomCode = roomCode ∧ i < counts₂.length then counts₂.getD i 0
          else (publishResultsApply roomCode counts s).clearResults
            roomCode i) = counts₂.getD i 0
        rw [if_pos ⟨rfl, by omega⟩]
      unfold getClearResults
      rw [erooms, if_pos hex, if_pos epub, if_pos hi, ecr]

theorem publishResults_spec_witness :
    publishResults "eve" "R1" []
      (stepTx (createRoom "alice" "R1" "t" "d" 2 10 false 0 0 initialState)
        initialState) = .error "Only creator can publish results" :=
  (publishResults_spec "eve" "R1" [] []
    (stepTx (createRoom "alice" "R1" "t" "d" 2 10 false 0 0 initialState)
      initialState) (by decide)).1 (by decide)

/-- Claim C9, counterexample: with the empty string as room code,
`createRoomWithCandidatesBatch` succeeds (the stored code still has length
0, so the existence check passes), yet the subsequent `getCandidate` call
reverts with "Room does not exist" instead of returning the supplied
candidate — the round-trip fails as stated. -/
theorem batch_roundtrip_fails_for_empty_code :
    createRoomWithCandidatesBatch "alice" "" "t" "d" 2 10 false 0
      ["A", "B"] ["da", "db"] ["ua", "ub"] 0 initialState =
      .ok (stepTx (createRoomWithCandidatesBatch "alice" "" "t" "d" 2 10
        false 0 ["A", "B"] ["da", "db"] ["ua", "ub"] 0 initialState)
        initialState) ∧
    getCandidate "" 0
      (stepTx (createRoomWithCandidatesBatch "alice" "" "t" "d" 2 10 false 0
        ["A", "B"] ["da", "db"] ["ua", "ub"] 0 initialState) initialState) =
      .error "Room does not exist" :=
  ⟨rfl, rfl⟩

/-- Claim C9 (amended): for every successful
`createRoomWithCandidatesBatch` whose room code is a nonempty string, and
every index `i` below the length of the supplied arrays, `getCandidate`
returns exactly the name, description and imageUrl supplied at position
`i`. (With the empty room code the creation succeeds but every
`getCandidate` reverts, because the contract treats a stored empty code as
"room does not exist".) -/
theorem getCandidate_roundtrip (sender roomCode title description : String)
    (mp et : Nat) (hp : Bool) (ph : Nat) (ns ds us : List String) (now : Nat)
    (s s' : ContractState) (hcode : 0 < roomCode.length)
    (h : createRoomWithCandidatesBatch sender roomCode title description mp et
      hp ph ns ds us now s = .ok s')
    (i : Nat) (hi : i < ns.length) :
    getCandidate roomCode i s' =
      .ok (ns.getD i "", ds.getD i "", us.getD i "") := by
  obtain ⟨-, -, -, ⟨hd, hu⟩, -, rfl⟩ :=
    createRoomWithCandidatesBatch_ok_iff.mp h
  obtain ⟨lcode, -, -, -, -, -, -, -, -⟩ :=
    addCandidatesLoop_room_fields roomCode ns ds us
      (createRoomApply sender roomCode title description mp et hp ph s)
      roomCode
  have ecode : ((addCandidatesLoop roomCode ns ds us
      (createRoomApply sender roomCode title description mp et hp ph
        s)).rooms roomCode).code = roomCode := by
    rw [lcode]
    simp [createRoomApply]
  have ecc0 : ((createRoomApply sender roomCode title description mp et hp ph
      s).rooms roomCode).candidateCount = 0 := by
    simp [createRoomApply]
  have ecc : ((addCandidatesLoop roomCode ns ds us
      (createRoomApply sender roomCode title description mp et hp ph
        s)).rooms roomCode).candidateCount = ns.length := by
    rw [addCandidatesLoop_count roomCode ns ds us hd hu
      (createRoomApply sender roomCode title description mp et hp ph s)
      roomCode, if_pos rfl, ecc0, Nat.zero_add]
  have hcand := addCandidatesLoop_roomCandidates roomCode ns ds us hd hu
    (createRoomApply sender roomCode title description mp et hp ph s)
    roomCode i
  rw [ecc0] at hcand
  rw [if_pos ⟨rfl, Nat.zero_le i, by omega⟩] at hcand
  simp only [Nat.sub_zero] at hcand
  unfold getCandidate
  rw [if_pos (by rw [ecode]; exact hcode),
    if_pos (show i < ((addCandidatesLoop roomCode ns ds us
      (createRoomApply sender roomCode title description mp et hp ph
        s)).rooms roomCode).candidateCount by rw [ecc]; exact hi),
    hcand]

theorem getCandidate_roundtrip_witness :
    getCandidate "R1" 0
      (stepTx (createRoomWithCandidatesBatch "alice" "R1" "t" "d" 2 10 false 0
        ["A", "B"] ["da", "db"] ["ua", "ub"] 0 initialState) initialState) =
      .ok ("A", "da", "ua") := by
  have h := getCandidate_roundtrip "alice" "R1" "t" "d" 2 10 false 0
    ["A", "B"] ["da", "db"] ["ua", "ub"] 0 initialState
    (stepTx (createRoomWithCandidatesBatch "alice" "R1" "t" "d" 2 10 false 0
      ["A", "B"] ["da", "db"] ["ua", "ub"] 0 initialState) initialState)
    (by decide) rfl 0 (by decide)
  simpa using h

/-- Claim C10: at every state reachable from deployment, each room's
`totalVotes` equals both the sum of `candidateVotes` over
`[0, candidateCount)` and the number of identities marked in `hasVoted`;
each successful `vote` increments `totalVotes`, exactly the chosen
candidate's counter, and the voted set's size by one each, leaving every
other room's accounting untouched; and no non-`vote` transaction ever
changes `totalVotes`, `candidateVotes` or `hasVoted`. -/
theorem vote_accounting_invariant :
    (∀ (ops : List Op) (r : String),
      (execOps ops initialState).totalVotes r =
        (∑ i ∈ Finset.range
          ((execOps ops initialState).rooms r).candidateCount,
          (execOps ops initialState).candidateVotes r i) ∧
      (execOps ops initialState).totalVotes r =
        ((execOps ops initialState).hasVoted r).card) ∧
    (∀ (sender roomCode : String) (cid v : Nat) (p : Bool) (now : Nat)
      (s s' : ContractState),
      vote sender roomCode cid v p now s = .ok s' →
      sender ∉ s.hasVoted roomCode ∧
      s'.totalVotes roomCode = s.totalVotes roomCode + 1 ∧
      s'.candidateVotes roomCode cid = s.candidateVotes roomCode cid + 1 ∧
      (∀ j, j ≠ cid →
        s'.candidateVotes roomCode j = s.candidateVotes roomCode j) ∧
      s'.hasVoted roomCode = insert sender (s.hasVoted roomCode) ∧
      (s'.hasVoted roomCode).card = (s.hasVoted roomCode).card + 1 ∧
      (∀ r, r ≠ roomCode → s'.totalVotes r = s.totalVotes r ∧
        s'.hasVoted r = s.hasVoted r ∧
        ∀ j, s'.candidateVotes r j = s.candidateVotes r j)) ∧
    (∀ (op : Op) (s : ContractState), op.isVote = false →
      (applyOp op s).totalVotes = s.totalVotes ∧
      (applyOp op s).candidateVotes = s.candidateVotes ∧
      (applyOp op s).hasVoted = s.hasVoted) := by
  refine ⟨?_, ?_, ?_⟩
  · intro ops r
    obtain ⟨w1, w2, -, -⟩ := execOps_tallyInv ops initialState
      initialState_tallyInv r
    exact ⟨w1, w2⟩
  · intro sender roomCode cid v p now s s' h
    obtain ⟨-, -, h3, -, -, -, -, -, rfl⟩ := vote_ok_iff.mp h
    refine ⟨h3, by simp [voteApply], by simp [voteApply], ?_, by simp [voteApply],
      ?_, ?_⟩
    · intro j hj
      simp [voteApply, hj]
    · have e3 : (voteApply sender roomCode cid v s).hasVoted roomCode =
          insert sender (s.hasVoted roomCode) := by
        simp [voteApply]
      rw [e3, Finset.card_insert_of_not_mem h3]
    · intro r hr
      refine ⟨by simp [voteApply, hr], by simp [voteApply, hr], ?_⟩
      intro j
      simp [voteApply, hr]
  · intro op s hnv
    cases op with
    | vote sender roomCode cid v p now => simp [Op.isVote] at hnv
    | createRoom sender roomCode title description mp et hp ph now =>
      rcases hres : createRoom sender roomCode title description mp et hp ph
          now s with _ | s'
      · simp only [applyOp, hres, stepTx]
        refine ⟨?_, ?_, ?_⟩ <;> trivial
      · simp only [applyOp, hres, stepTx]
        obtain ⟨-, -, -, rfl⟩ := createRoom_ok_iff.mp hres
        refine ⟨?_, ?_, ?_⟩ <;> trivial
    | createRoomWithCandidatesBatch sender roomCode title description mp et hp ph ns ds us now =>
      rcases hres : createRoomWithCandidatesBatch sender roomCode title
          description mp et hp ph ns ds us now s with _ | s'
      · simp only [applyOp, hres, stepTx]
        refine ⟨?_, ?_, ?_⟩ <;> trivial
      · simp only [applyOp, hres, stepTx]
        obtain ⟨-, -, -, -, -, rfl⟩ :=
          createRoomWithCandidatesBatch_ok_iff.mp hres
        obtain ⟨lhv, -, ltv, lcv, -, -⟩ :=
          addCandidatesLoop_frame roomCode ns ds us
            (createRoomApply sender roomCode title description mp et hp ph s)
        exact ⟨ltv, lcv, lhv⟩
    | addCandidate sender roomCode name description imageUrl =>
      rcases hres : addCandidate sender roomCode name description imageUrl s
        with _ | s'
      · simp only [applyOp, hres, stepTx]
        refine ⟨?_, ?_, ?_⟩ <;> trivial
      · simp only [applyOp, hres, stepTx]
        obtain ⟨-, -, -, rfl⟩ := addCandidate_ok_iff.mp hres
        refine ⟨?_, ?_, ?_⟩ <;> trivial
    | addCandidatesBatch sender roomCode ns ds us =>
      rcases hres : addCandidatesBatch sender roomCode ns ds us s with _ | s'
      · simp only [applyOp, hres, stepTx]
        refine ⟨?_, ?_, ?_⟩ <;> trivial
      · simp only [applyOp, hres, stepTx]
        obtain ⟨-, -, -, -, -, rfl⟩ := addCandidatesBatch_ok_iff.mp hres
        obtain ⟨lhv, -, ltv, lcv, -, -⟩ :=
          addCandidatesLoop_frame roomCode ns ds us s
        exact ⟨ltv, lcv, lhv⟩
    | joinRoom sender roomCode password now =>
      rcases hres : joinRoom sender roomCode password now s with _ | s'
      · simp only [applyOp, hres, stepTx]
        refine ⟨?_, ?_, ?_⟩ <;> trivial
      · simp only [applyOp, hres, stepTx]
        obtain ⟨-, -, -, -, -, -, -, rfl⟩ := joinRoom_ok_iff.mp hres
        refine ⟨?_, ?_, ?_⟩ <;> trivial
    | endRoom sender roomCode =>
      rcases hres : endRoom sender roomCode s with _ | s'
      · simp only [applyOp, hres, stepTx]
        refine ⟨?_, ?_, ?_⟩ <;> trivial
      · simp only [applyOp, hres, stepTx]
        obtain ⟨-, -, -, rfl⟩ := endRoom_ok_iff.mp hres
        refine ⟨?_, ?_, ?_⟩ <;> trivial
    | checkAndEndRoom sender roomCode now =>
      rcases hres : checkAndEndRoom sender roomCode now s with _ | s'
      · simp only [applyOp, hres, stepTx]
        refine ⟨?_, ?_, ?_⟩ <;> trivial
      · simp only [applyOp, hres, stepTx]
        obtain ⟨-, -, -, rfl⟩ := checkAndEndRoom_ok_iff.mp hres
        refine ⟨?_, ?_, ?_⟩ <;> trivial
    | publishResults sender roomCode counts =>
      rcases hres : publishResults sender roomCode counts s with _ | s'
      · simp only [applyOp, hres, stepTx]
        refine ⟨?_, ?_, ?_⟩ <;> trivial
      · simp only [applyOp, hres, stepTx]
        obtain ⟨-, -, -, -, rfl⟩ := publishResults_ok_iff.mp hres
        refine ⟨?_, ?_, ?_⟩ <;> trivial

theorem vote_accounting_invariant_witness :
    ((execOps [Op.createRoom "alice" "R1" "t" "d" 2 10 false 0 0]
      initialState).totalVotes "R1" =
      ((execOps [Op.createRoom "alice" "R1" "t" "d" 2 10 false 0 0]
        initialState).hasVoted "R1").card) ∧
    ((stepTx (vote "alice" "R1" 0 1 true 5
      (stepTx (createRoomWithCandidatesBatch "alice" "R1" "t" "d" 2 10 false 0
        ["A", "B"] ["da", "db"] ["ua", "ub"] 0 initialState) initialState))
      (stepTx (createRoomWithCandidatesBatch "alice" "R1" "t" "d" 2 10 false 0
        ["A", "B"] ["da", "db"] ["ua", "ub"] 0 initialState)
        initialState)).totalVotes "R1" =
      (stepTx (createRoomWithCandidatesBatch "alice" "R1" "t" "d" 2 10 false 0
        ["A", "B"] ["da", "db"] ["ua", "ub"] 0 initialState)
        initialState).totalVotes "R1" + 1) ∧
    (applyOp (Op.endRoom "alice" "R1") initialState).totalVotes =
      initialState.totalVotes :=
  ⟨(vote_accounting_invariant.1
      [Op.createRoom "alice" "R1" "t" "d" 2 10 false 0 0] "R1").2,
   (vote_accounting_invariant.2.1 "alice" "R1" 0 1 true 5
    (stepTx (createRoomWithCandidatesBatch "alice" "R1" "t" "d" 2 10 false 0
      ["A", "B"] ["da", "db"] ["ua", "ub"] 0 initialState) initialState)
    (stepTx (vote "alice" "R1" 0 1 true 5
      (stepTx (createRoomWithCandidatesBatch "alice" "R1" "t" "d" 2 10 false 0
        ["A", "B"] ["da", "db"] ["ua", "ub"] 0 initialState) initialState))
      (stepTx (createRoomWithCandidatesBatch "alice" "R1" "t" "d" 2 10 false 0
        ["A", "B"] ["da", "db"] ["ua", "ub"] 0 initialState) initialState))
    rfl).2.1,
   (vote_accounting_invariant.2.2 (Op.endRoom "alice" "R1") initialState
    rfl).1⟩

end VotingRoom
